import Mathlib

/-!
Verification development for the ServersDockerBot container/volume/port
lifecycle core.

The definitions below are a shallow embedding of
`src/docker_runner/docker_runner.py` (class `DockerRunner`),
`src/docker_runner/upnp_wrapper.py` (class `UPNPWrapper`),
`src/docker_runner/container_runner/container_runner_interface.py`
(the data model), and the legacy runner `src/cogs/docker_runner.py`
(its per-owner file-browser cap).

The docker engine is modelled as an explicit state (`EngineState`) holding
images, volumes and running containers; the docker-py client calls the code
makes are modelled by small functions over that state, with docker-py's
documented semantics: `volumes.get` / `images.get` / `containers.get` raise
`docker.errors.NotFound` / `docker.errors.ImageNotFound` when the resource is
absent (they never return `None`), `containers.list` returns only running
containers unless `all=True`, and label filters select resources whose labels
match every supplied `key=value` entry (a bare `key` entry only requires the
key to be present, which every resource created by this core satisfies).
Byte strings are modelled as `List Nat`; text decoding (`bytes.decode`,
chardet) is modelled at the byte level, which is faithful for the ASCII-range
characters (ESC, `[`, `\r`, `\n`) the claims are about.
-/

namespace ServersBot

/-- `ServerType` from the interface module: the `type` label value. -/
inductive ServerType
  | GAME
  | FILE_BROWSER
deriving DecidableEq, Repr

/-- `Port` from the interface module (`number`, `protocol`). -/
structure PortM where
  number : Nat
  protocol : String
deriving DecidableEq, Repr

/-- `Port.id_`: `f'{number}/{protocol}'`. -/
def PortM.id_ (p : PortM) : String := toString p.number ++ "/" ++ p.protocol

/-- A docker image tag, `name:version`.  The source stores the tag as a single
string and splits it on `':'`; the model keeps the two halves, which is the
same data for well-formed docker tags (exactly one `':'`). -/
structure ImageTag where
  name : String
  version : String
deriving DecidableEq, Repr

/-- The `name:version` string of a tag. -/
def ImageTag.id_ (t : ImageTag) : String := t.name ++ ":" ++ t.version

/-- `ImageInfo` from the interface module. -/
structure ImageInfo where
  name : String
  version : String
  ports : List PortM
deriving DecidableEq, Repr

/-- `ImageInfo.id_`: `f'{name}:{version}'`. -/
def ImageInfo.id_ (i : ImageInfo) : String := i.name ++ ":" ++ i.version

/-- `ServerInfo` from the interface module. -/
structure ServerInfo where
  id_ : String
  user_id : String
  image : ImageInfo
  «on» : Bool
  domain : Option String := none
  ports : Option (List PortM) := none
deriving DecidableEq, Repr

/-- `FileBrowserInfo` from the interface module. -/
structure FileBrowserInfo where
  id_ : String
  owner_id : String
  domain : String
  connected_to : ServerInfo
deriving DecidableEq, Repr

/-- `VolumeLabels` (pydantic model in `docker_runner.py`). -/
structure VolumeLabels where
  user_id : String
  image_id : String
deriving DecidableEq, Repr

/-- `ContainerLabels` (pydantic model in `docker_runner.py`). -/
structure ContainerLabels where
  user_id : String
  image_id : String
  volume_id : String
  type : ServerType
deriving DecidableEq, Repr

/-- An engine-side image: its tag list, the `ExposedPorts` of its config and
its `WorkingDir`. -/
structure EngImage where
  tags : List ImageTag
  exposedPorts : List PortM
  workingDir : Option String
deriving DecidableEq, Repr

/-- An engine-side volume: engine id plus the labels attached at creation. -/
structure EngVolume where
  vid : String
  labels : VolumeLabels
deriving DecidableEq, Repr

/-- An engine-side container: engine id, labels, whether it is running, the
host ports the engine bound for it, and its log buffer (bytes). -/
structure EngContainer where
  cid : String
  labels : ContainerLabels
  running : Bool
  hostPorts : List PortM
  logBytes : List Nat
deriving DecidableEq, Repr

/-- The docker engine state: the resources visible to the client, plus a
counter from which fresh engine ids are minted. -/
structure EngineState where
  images : List EngImage
  volumes : List EngVolume
  containers : List EngContainer
  fresh : Nat
deriving DecidableEq, Repr

/-- Every error a `DockerRunner` operation can surface.  The first four model
exceptions that are NOT the domain exception classes declared in
`docker_runner.py`: `engineNotFound` is docker-py's `docker.errors.NotFound`
(raised by `volumes.get`/`containers.get` on a missing resource),
`engineImageNotFound` is docker-py's `docker.errors.ImageNotFound` (raised by
`images.get`), `valueErr` is the `ValueError` raised by
`_get_server_container` on a non-unique match, `indexErr` is an uncaught
`IndexError` (`image_info_list[0]` on an untagged image).  The rest are the
domain exception classes of `docker_runner.py`. -/
inductive RunnerError
  | engineNotFound
  | engineImageNotFound
  | valueErr
  | indexErr
  | gameNotFound
  | serverNotFound
  | serverAlreadyRunning
  | serverNotRunning
  | maxServersReached
deriving DecidableEq, Repr

/-- `DOMAIN = 'acooldomain.co'`. -/
def DOMAIN : String := "acooldomain.co"

/-- `FILE_BROWSER_IMAGE = 'filebrowser/filebrowser'`. -/
def FILE_BROWSER_IMAGE : String := "filebrowser/filebrowser"

/-- docker-py `client.volumes.get(volume_id)`: the volume, or
`docker.errors.NotFound` when absent (it never returns `None`). -/
def volumesGet (st : EngineState) (volume_id : String) : Except RunnerError EngVolume :=
  match st.volumes.find? (fun v => v.vid == volume_id) with
  | some v => .ok v
  | none => .error .engineNotFound

/-- docker-py `client.images.get(image_id)`: the image one of whose tags is
`image_id`, or `docker.errors.ImageNotFound` when none matches (it never
returns `None`). -/
def imagesGet (st : EngineState) (image_id : String) : Except RunnerError EngImage :=
  match st.images.find? (fun i => i.tags.any (fun t => t.id_ == image_id)) with
  | some i => .ok i
  | none => .error .engineImageNotFound

/-- The label filter `create_labels_filter` builds for container queries.
A `none` field stands for a key that is either absent from the filter or
passed as a bare `key` entry (value `None` in the source); both match every
container, since every container this core creates carries all four labels. -/
structure ContainerFilter where
  user_id : Option String := none
  image_id : Option String := none
  volume_id : Option String := none
  type : Option ServerType := none

/-- One filter field against one label value. -/
def optMatch {α : Type} [BEq α] : Option α → α → Bool
  | none, _ => true
  | some x, y => x == y

/-- Whether a container's labels satisfy a filter. -/
def containerMatches (f : ContainerFilter) (c : EngContainer) : Bool :=
  optMatch f.user_id c.labels.user_id && optMatch f.image_id c.labels.image_id &&
    optMatch f.volume_id c.labels.volume_id &&
    (match f.type with | none => true | some t => t == c.labels.type)

/-- docker-py `client.containers.list(filters={'label': ...})`: running
containers only. -/
def containersList (st : EngineState) (f : ContainerFilter) : List EngContainer :=
  st.containers.filter (fun c => c.running && containerMatches f c)

/-- docker-py `client.containers.list(all=True, filters={'label': ...})`. -/
def containersListAll (st : EngineState) (f : ContainerFilter) : List EngContainer :=
  st.containers.filter (fun c => containerMatches f c)

/-- Label filter for volume queries (`user_id`, `image_id`). -/
structure VolumeFilter where
  user_id : Option String := none
  image_id : Option String := none

/-- docker-py `client.volumes.list(filters={'label': ...})`. -/
def volumesList (st : EngineState) (f : VolumeFilter) : List EngVolume :=
  st.volumes.filter
    (fun v => optMatch f.user_id v.labels.user_id && optMatch f.image_id v.labels.image_id)

/-- The engine id minted for the next created resource. -/
def freshId (st : EngineState) : String := "r" ++ toString st.fresh

/-- docker-py `client.volumes.create(labels=...)`. -/
def volumesCreate (st : EngineState) (labels : VolumeLabels) : EngineState × EngVolume :=
  let v : EngVolume := { vid := freshId st, labels := labels }
  ({ st with volumes := st.volumes ++ [v], fresh := st.fresh + 1 }, v)

/-- `containers.create(...)` followed by `container.start()`, the settling
sleep, and the re-read `containers.get(container.id)`: the source always
performs these together.  The engine-chosen host port bindings discovered by
the re-read are modelled by the `hostPorts` argument. -/
def containersCreateAndStart (st : EngineState) (labels : ContainerLabels)
    (hostPorts : List PortM) : EngineState × EngContainer :=
  let c : EngContainer :=
    { cid := freshId st, labels := labels, running := true, hostPorts := hostPorts,
      logBytes := [] }
  ({ st with containers := st.containers ++ [c], fresh := st.fresh + 1 }, c)

/-- `container.stop()` on an `auto_remove=True` container: the engine reclaims
it, so it disappears from the container list. -/
def containerStop (st : EngineState) (cid : String) : EngineState :=
  { st with containers := st.containers.filter (fun c => c.cid != cid) }

/-- `DockerRunner._extract_ports_from_container`: the host ports the engine
bound for the container. -/
def extractPortsFromContainer (c : EngContainer) : List PortM := c.hostPorts

/-- `DockerRunner._extract_image_info_from_image`: one `ImageInfo` per tag,
each carrying the image's exposed ports (`set(ports)` is modelled as
deduplication). -/
def extractImageInfoFromImage (img : EngImage) : List ImageInfo :=
  img.tags.map (fun t => { name := t.name, version := t.version, ports := img.exposedPorts.dedup })

/-- `DockerRunner.get_image_info`: `images.get`, then the FIRST entry of the
per-tag info list.  The `if image is None: raise GameNotFound()` branch of the
source is dead code (docker-py raises instead of returning `None`), so it does
not appear; `image_info_list[0]` on an untagged image is an uncaught
`IndexError`. -/
def get_image_info (st : EngineState) (image_id : String) : Except RunnerError ImageInfo := do
  let img ← imagesGet st image_id
  match extractImageInfoFromImage img with
  | [] => .error .indexErr
  | i :: _ => .ok i

/-- The label filter `_get_server_container` builds: the volume+image+kind
label combination, optionally narrowed by owner
(`create_labels_filter(volume_id=..., image_id=..., type=..., user_id=...)`). -/
def serverContainerFilter (server_info : ServerInfo) (server_type : ServerType)
    (user_id : Option String) : ContainerFilter :=
  { volume_id := some server_info.id_, image_id := some server_info.image.id_,
    type := some server_type, user_id := user_id }

/-- `DockerRunner._get_server_container`: running containers filtered by
`volume_id`, `image_id`, `type` and (optionally) `user_id`; more than one
match raises `ValueError`, none returns `None`. -/
def getServerContainer (st : EngineState) (server_info : ServerInfo)
    (server_type : ServerType) (user_id : Option String) :
    Except RunnerError (Option EngContainer) :=
  let l := containersList st (serverContainerFilter server_info server_type user_id)
  if l.length > 1 then .error .valueErr else .ok l.head?

/-- `DockerRunner.get_server_info`.  `volumes.get` raises
`docker.errors.NotFound` on a missing volume (the source's
`if volume is None: raise ServerNotFound()` branches are dead code and so do
not appear). -/
def get_server_info (st : EngineState) (server_id : String) (user_id : Option String) :
    Except RunnerError ServerInfo := do
  let vol ← volumesGet st server_id
  let image ← get_image_info st vol.labels.image_id
  let server_info : ServerInfo :=
    { id_ := vol.vid, user_id := vol.labels.user_id, image := image, «on» := false }
  let c? ← getServerContainer st server_info ServerType.GAME user_id
  match c? with
  | none => .ok server_info
  | some c =>
      .ok { id_ := vol.vid, user_id := vol.labels.user_id, image := image, «on» := true,
            domain := some DOMAIN, ports := some (extractPortsFromContainer c) }

/-- `DockerRunner.list_servers`. -/
def list_servers (st : EngineState) (user_id image_id : Option String) :
    Except RunnerError (List ServerInfo) := do
  let vols := volumesList st { user_id := user_id, image_id := image_id }
  vols.mapM (fun v => get_server_info st v.vid none)

/-- `DockerRunner.create_game_server`.  The `if image is None` branch of the
source is dead code (`get_image_info` raises instead of returning `None`). -/
def create_game_server (st : EngineState) (user_id image_id : String) :
    Except RunnerError (EngineState × ServerInfo) := do
  let image ← get_image_info st image_id
  let existing ← list_servers st (some user_id) (some image.id_)
  if existing.length > 5 then .error .maxServersReached
  else
    let p := volumesCreate st { user_id := user_id, image_id := image.id_ }
    .ok (p.1, { id_ := p.2.vid, user_id := p.2.labels.user_id, image := image, «on» := false })

/-- `DockerRunner.start_game_server`.  The `ports` argument models the
caller's override dict keyed by host port; `none` selects the image's declared
ports (`{port: None for port in server_info.image.ports}`).  The working-dir
lookup (`_get_server_image_working_dir`) only shapes the mount, which has no
further observable effect here, but its engine call is kept because it can
raise.  The host ports the engine binds are modelled as the requested host
ports themselves. -/
def start_game_server (st : EngineState) (server_id : String)
    (ports : Option (List (PortM × Option PortM))) :
    Except RunnerError (EngineState × ServerInfo) := do
  let server_info ← get_server_info st server_id none
  if server_info.«on» then .error .serverAlreadyRunning
  else do
    let img ← imagesGet st server_info.image.id_
    let _workingDir := img.workingDir
    let requested : List (PortM × Option PortM) :=
      match ports with
      | none => server_info.image.ports.map (fun p => (p, none))
      | some m => m
    let p := containersCreateAndStart st
      { user_id := server_info.user_id, image_id := server_info.image.id_,
        volume_id := server_info.id_, type := ServerType.GAME }
      (requested.map (fun q => q.1))
    .ok (p.1, { id_ := server_info.id_, user_id := server_info.user_id,
                image := server_info.image, «on» := true,
                ports := some (extractPortsFromContainer p.2), domain := some DOMAIN })

/-- The container resolution step of `DockerRunner.run_command`:
`containers.list(filters={'label': ['volume_id=<id>']})[0]`, with any
exception (in particular the `IndexError` of `[0]` on an empty list) caught
and re-raised as `ServerNotRunning`.  Note the filter carries ONLY the
`volume_id` label: no `type`, `image_id` or `user_id` entry. -/
def runCommandResolve (st : EngineState) (server_id : String) :
    Except RunnerError EngContainer :=
  match containersList st { volume_id := some server_id } with
  | [] => .error .serverNotRunning
  | c :: _ => .ok c

/-- `DockerRunner.delete_game_server`: `volumes.get` with any exception
re-raised as `ServerNotFound`; force-remove of every container (running or
not) labelled `volume_id=<id>`; force-remove of the volume. -/
def delete_game_server (st : EngineState) (server_id : String) :
    Except RunnerError EngineState := do
  let _vol ←
    match volumesGet st server_id with
    | .ok v => Except.ok v
    | .error _ => Except.error RunnerError.serverNotFound
  let st1 : EngineState :=
    { st with containers := st.containers.filter (fun c => c.labels.volume_id != server_id) }
  .ok { st1 with volumes := st1.volumes.filter (fun v => v.vid != server_id) }

/-- `DockerRunner.start_file_browser`.  The `filebrowser` command line built
from `hashed_password` configures the sidecar process and has no observable
effect in this model; the argument is kept for the call shape. -/
def start_file_browser (st : EngineState) (server_id owner_id : String)
    (hashed_password : Option String) :
    Except RunnerError (EngineState × FileBrowserInfo) := do
  let _cmd := hashed_password
  let server_info ← get_server_info st server_id none
  let c? ← getServerContainer st server_info ServerType.FILE_BROWSER (some owner_id)
  match c? with
  | some container =>
      .ok (st, { id_ := container.cid.take 12, owner_id := owner_id,
                 domain := "browsers." ++ DOMAIN, connected_to := server_info })
  | none =>
      let p := containersCreateAndStart st
        { user_id := owner_id, image_id := server_info.image.id_,
          volume_id := server_info.id_, type := ServerType.FILE_BROWSER } []
      .ok (p.1, { id_ := p.2.cid.take 12, owner_id := owner_id,
                  domain := "browsers." ++ DOMAIN, connected_to := server_info })

/-! ### Byte-stream processing: the `ANSI_ESCAPE` regex and carriage returns

`ANSI_ESCAPE = re.compile(br'(?:\x1B[@-Z\\-_]|[\x80-\x9A\x9C-\x9F]|(?:\x1B\[|\x9B)[0-?]*[\x20-\x2F]*[@-~])')`

`re.sub(b'', input)` scans the input left to right, removing each leftmost
non-overlapping match and continuing AFTER the removed span without
re-scanning what came before; alternation branches are tried in order (the
three branches are distinguishable by their first two bytes).  Inside the
third branch the classes `[0-?]`, `[\x20-\x2F]`, `[@-~]` are pairwise disjoint, so
the greedy scan needs no backtracking. -/

/-- The class `[@-Z\\-_]` of the first branch: `0x40`-`0x5A` or `0x5C`-`0x5F`
(note `[` = `0x5B` is excluded). -/
def inEscFinal (b : Nat) : Bool := (0x40 ≤ b && b ≤ 0x5A) || (0x5C ≤ b && b ≤ 0x5F)

/-- The class `[\x80-\x9A\x9C-\x9F]` of the second branch (`0x9B` excluded:
that byte is the stand-alone CSI introducer of the third branch). -/
def inC1 (b : Nat) : Bool := (0x80 ≤ b && b ≤ 0x9A) || (0x9C ≤ b && b ≤ 0x9F)

/-- The parameter class `[0-?]`: `0x30`-`0x3F`. -/
def inCsiParam (b : Nat) : Bool := 0x30 ≤ b && b ≤ 0x3F

/-- The intermediate class `[\x20-\x2F]`: `0x20`-`0x2F`. -/
def inCsiInter (b : Nat) : Bool := 0x20 ≤ b && b ≤ 0x2F

/-- The final class `[@-~]`: `0x40`-`0x7E`. -/
def inCsiFinal (b : Nat) : Bool := 0x40 ≤ b && b ≤ 0x7E

/-- Matches `[0-?]*[\x20-\x2F]*[@-~]` at the head of `bs`; returns the number of
bytes matched. -/
def csiTail (bs : List Nat) : Option Nat :=
  let ps := bs.takeWhile inCsiParam
  let r1 := bs.drop ps.length
  let is := r1.takeWhile inCsiInter
  let r2 := r1.drop is.length
  match r2 with
  | [] => none
  | f :: _ => if inCsiFinal f then some (ps.length + is.length + 1) else none

/-- Tries to match the `ANSI_ESCAPE` regex at the head of `bs`; returns the
match length (always positive). -/
def ansiMatchAt (bs : List Nat) : Option Nat :=
  match bs with
  | [] => none
  | b :: rest =>
    if b = 0x1B then
      match rest with
      | [] => none
      | b2 :: rest2 =>
        if inEscFinal b2 then some 2
        else if b2 = 0x5B then (csiTail rest2).map (fun n => 2 + n)
        else none
    else if inC1 b then some 1
    else if b = 0x9B then (csiTail rest).map (fun n => 1 + n)
    else none

/-- Whether the regex matches somewhere in `bs`. -/
def hasAnsiMatch : List Nat → Bool
  | [] => false
  | b :: rest => (ansiMatchAt (b :: rest)).isSome || hasAnsiMatch rest

/-- `ANSI_ESCAPE.sub(b'', bs)`, with explicit structural fuel (the fuel only
has to dominate the input length; `stripAnsi` below supplies `bs.length` and
`stripAnsiF_fuel` proves any larger fuel gives the same result, so the fuel is
an artefact of totality, not of behaviour). -/
def stripAnsiF : Nat → List Nat → List Nat
  | _, [] => []
  | 0, bs => bs
  | fuel + 1, b :: rest =>
    match ansiMatchAt (b :: rest) with
    | some n => stripAnsiF fuel (rest.drop (n - 1))
    | none => b :: stripAnsiF fuel rest

/-- `ANSI_ESCAPE.sub(b'', bs)`. -/
def stripAnsi (bs : List Nat) : List Nat := stripAnsiF bs.length bs

/-- `.replace('\r', '')` ( `'\r'` = byte 13), applied to a decoded line:
removes every carriage return. -/
def stripCR (bs : List Nat) : List Nat := bs.filter (fun b => b != 13)

/-- The per-line transform of `run_command`:
`ANSI_ESCAPE.sub(b'', f.readline()).decode().replace('\r', '')`. -/
def procLine (bs : List Nat) : List Nat := stripCR (stripAnsi bs)

/-! ### The `run_command` polling read loop

```
retries = 5
lines = 20
while lines > 0:
    read, _, _ = select.select([f], [], [], 0.1)
    if f not in read:
        if retries >= 0:
            retries -= 1
            continue
        break
    r = ANSI_ESCAPE.sub(b'', f.readline()).decode().replace('\r', '')
    all_output += f'{r}\n'
    lines -= 1
```

The environment is modelled by `polls` — the outcome of each `select` call in
order, `true` when the stream was readable (indices beyond the list are
timeouts) — and `stream`, the successive lines `readline` yields (beyond the
list, `readline` yields `b''`, the EOF behaviour).  The `select` issued once
before the loop consumes nothing and its result is discarded, so it does not
appear.  The python `retries` counter (an int that is allowed to reach `-1`)
is stored shifted by one: `retriesN = retries + 1`, so the `retries >= 0`
test becomes `retriesN ≥ 1` and the `break` fires at `retriesN = 0`.
The recursion is given structural fuel; every iteration strictly decreases
`7 * lines + retriesN`, and `runCommandLoop_fuel` below proves any fuel of at
least that size gives the same result, so `146 = 7 * 20 + 6` is always
enough. -/

/-- One run of the read loop; returns the processed lines in collection
order. -/
def runCommandLoop (polls : List Bool) (stream : List (List Nat)) :
    Nat → Nat → Nat → Nat → Nat → List (List Nat) → List (List Nat)
  | 0, _, _, _, _, acc => acc.reverse
  | _ + 1, _, _, 0, _, acc => acc.reverse
  | fuel + 1, pollIdx, streamIdx, lines + 1, retriesN, acc =>
    if polls.getD pollIdx false then
      runCommandLoop polls stream fuel (pollIdx + 1) (streamIdx + 1) lines retriesN
        (procLine (stream.getD streamIdx []) :: acc)
    else
      match retriesN with
      | 0 => acc.reverse
      | r + 1 => runCommandLoop polls stream fuel (pollIdx + 1) streamIdx (lines + 1) r acc

/-- The lines collected by the loop of `run_command` (`lines = 20`,
`retries = 5`, i.e. `retriesN = 6`). -/
def runCommandCollect (polls : List Bool) (stream : List (List Nat)) : List (List Nat) :=
  runCommandLoop polls stream 146 0 0 20 6 []

/-- `all_output`: each collected line followed by `'\n'` (byte 10),
concatenated. -/
def runCommandOutput (polls : List Bool) (stream : List (List Nat)) : List Nat :=
  (runCommandCollect polls stream).foldr (fun l acc => l ++ 10 :: acc) []

/-- `DockerRunner.run_command`: resolve the container by the `volume_id`-only
label filter (any failure, in particular the `IndexError` of `[0]`, becomes
`ServerNotRunning`), write the command to the attached socket, then run the
read loop.  The written command only feeds the external process; the
observable result is the loop's output over the socket's behaviour
(`polls`, `stream`). -/
def run_command (st : EngineState) (server_id command : String)
    (polls : List Bool) (stream : List (List Nat)) : Except RunnerError (List Nat) := do
  let _c ← runCommandResolve st server_id
  let _written := command
  .ok (runCommandOutput polls stream)

/-- docker `container.logs(tail=n)`: the last `n` lines of the log buffer
(`none` models the python default `lines_limit = 'all'`, the whole buffer).
Lines are the chunks between `'\n'` bytes, reassembled unchanged. -/
def logsTail (limit : Option Nat) (bs : List Nat) : List Nat :=
  match limit with
  | none => bs
  | some n => List.intercalate [10] (((bs.splitOn 10).reverse.take n).reverse)

/-- `DockerRunner.get_server_logs`: resolve the running game container via
`_get_server_container`, `ServerNotRunning` when there is none, then
`ANSI_ESCAPE.sub(b'', container.logs(tail=lines_limit))` decoded
(`_convert_to_string` is byte decoding, modelled at the byte level).  Note:
no carriage-return removal happens here. -/
def get_server_logs (st : EngineState) (server_id : String) (lines_limit : Option Nat) :
    Except RunnerError (List Nat) := do
  let server_info ← get_server_info st server_id none
  let c? ← getServerContainer st server_info ServerType.GAME none
  match c? with
  | none => .error .serverNotRunning
  | some container => .ok (stripAnsi (logsTail lines_limit container.logBytes))

/-- `DockerRunner.stop_game_server`. -/
def stop_game_server (st : EngineState) (server_id : String) :
    Except RunnerError (EngineState × ServerInfo) := do
  let server_info ← get_server_info st server_id none
  if !server_info.«on» then .error .serverNotRunning
  else do
    let c? ← getServerContainer st server_info ServerType.GAME none
    match c? with
    | none => .error .serverNotRunning
    | some container =>
        let st1 := containerStop st container.cid
        let si ← get_server_info st1 server_id none
        .ok (st1, si)

/-! ### The NAT-traversal wrapper (`src/docker_runner/upnp_wrapper.py`)

`UPNPWrapper` holds `self._container_runner`, the wrapped base runner.  The
base runner's behaviour is abstracted into a record of response functions;
gateway port-mapping registration is a side effect with no influence on
returned values, recorded here as the list of (internal, external, protocol)
mappings requested. -/

/-- The wrapped base runner, as the wrapper sees it: one response function per
operation the claims touch. -/
structure BaseRunner where
  getImageInfoFn : String → Except RunnerError ImageInfo
  getServerInfoFn : String → Except RunnerError ServerInfo
  startGameServerFn : String → Except RunnerError ServerInfo
  startFileBrowserFn : String → String → Except RunnerError ServerInfo
  runCommandFn : String → String → Except RunnerError (List Nat)

/-- A port-forwarding registration requested from the gateways by
`_add_port_mapping` (internal port, external port, protocol). -/
structure PortMapping where
  internal : Nat
  external : Nat
  protocol : String
deriving DecidableEq, Repr

/-- `UPNPWrapper._open_ports_decorator`: run the wrapped call; if the result
carries ports, register a mapping for each port (gateway failures are printed
and swallowed, so registration never alters the result), then return the SAME
result.  The registered mappings are returned alongside for observation. -/
def openPortsDecorator (call : Except RunnerError ServerInfo) :
    Except RunnerError ServerInfo × List PortMapping :=
  match call with
  | .error e => (.error e, [])
  | .ok server_info =>
    match server_info.ports with
    | none => (.ok server_info, [])
    | some ports =>
        (.ok server_info,
         ports.map (fun p => { internal := p.number, external := p.number,
                               protocol := p.protocol }))

/-- `UPNPWrapper.get_image_info` AS WRITTEN:
`return self.get_image_info(image_id=image_id)` — a call to ITSELF, not to
`self._container_runner.get_image_info`.  Embedded with an explicit recursion
depth: `none` means the call has not returned within `fuel` nested calls
(python raises `RecursionError` once its stack limit is hit; no depth makes
the call return). -/
def upnpGetImageInfo (base : BaseRunner) : Nat → String → Option (Except RunnerError ImageInfo)
  | 0, _ => none
  | fuel + 1, image_id => upnpGetImageInfo base fuel image_id

/-- `UPNPWrapper.run_command`: plain delegation to the wrapped runner. -/
def upnpRunCommand (base : BaseRunner) (server_id command : String) :
    Except RunnerError (List Nat) :=
  base.runCommandFn server_id command

/-- `UPNPWrapper.get_server_info`: plain delegation to the wrapped runner. -/
def upnpGetServerInfo (base : BaseRunner) (server_id : String) :
    Except RunnerError ServerInfo :=
  base.getServerInfoFn server_id

/-- `UPNPWrapper.start_game_server`: the wrapped call under
`_open_ports_decorator`. -/
def upnpStartGameServer (base : BaseRunner) (server_id : String) :
    Except RunnerError ServerInfo × List PortMapping :=
  openPortsDecorator (base.startGameServerFn server_id)

/-- `UPNPWrapper.start_file_browser`: the wrapped call under
`_open_ports_decorator`. -/
def upnpStartFileBrowser (base : BaseRunner) (server_id owner_id : String) :
    Except RunnerError ServerInfo × List PortMapping :=
  openPortsDecorator (base.startFileBrowserFn server_id owner_id)

/-! ### The legacy runner's per-owner sidecar cap (`src/cogs/docker_runner.py`)

The legacy cog runner names sidecar containers
`filebrowser-<owner>-<server>` and lists an owner's sidecars by the name
filter `filebrowser-<owner>-`; only the (owner, server) pairs matter for the
cap, so its state is the list of live sidecar name pairs.

```
if len(self.list_file_browser_names(user_id=executor_id)) > 2:
    raise ServerAlreadyRunning()
container = self.docker.containers.create(...)
```
-/

/-- The legacy runner's sidecar state: the (owner, server) pair of every live
sidecar container. -/
structure LegacyState where
  browsers : List (String × String)
deriving DecidableEq, Repr

/-- Legacy `_list_file_browsers(user_id)` /  `list_file_browser_names`:
the owner's live sidecars. -/
def legacyListFileBrowsers (st : LegacyState) (user_id : String) : List (String × String) :=
  st.browsers.filter (fun b => b.1 == user_id)

/-- Legacy `start_file_browser` reduced to its cap-and-create skeleton: refuse
with `ServerAlreadyRunning` when the owner already has more than two live
sidecars, otherwise create the named sidecar container. -/
def legacyStartFileBrowser (st : LegacyState) (server executor_id : String) :
    Except RunnerError (LegacyState × (String × String)) :=
  if (legacyListFileBrowsers st executor_id).length > 2 then .error .serverAlreadyRunning
  else
    let b := (executor_id, server)
    .ok ({ browsers := st.browsers ++ [b] }, b)

/-! ### Derived observations and concrete scenario states -/

/-- The running game containers the uniqueness-filtered lookup
(`_get_server_container` with `server_type=GAME`, no user filter) sees for a
server: filtered by the volume+image+kind label combination. -/
def gameContainersFor (st : EngineState) (volume_id image_id : String) : List EngContainer :=
  containersList st
    { volume_id := some volume_id, image_id := some image_id,
      type := some ServerType.GAME, user_id := none }

/-- How many file-browser sidecars an owner has running. -/
def countSidecars (st : EngineState) (owner : String) : Nat :=
  (containersList st { user_id := some owner, type := some ServerType.FILE_BROWSER }).length

/-- C4's reading of the retry policy: once five consecutive polls (here the
first five) have come back empty, the loop has given up, so nothing is
collected. -/
def givesUpAfterFiveEmptyPolls : Prop :=
  ∀ polls stream, (∀ i < 5, polls.getD i false = false) →
    runCommandOutput polls stream = []

/-- A game image with single tag `g:1`, no exposed ports. -/
def imgG : EngImage := { tags := [⟨"g", "1"⟩], exposedPorts := [], workingDir := none }

/-- The `ImageInfo` resolved from `imgG`. -/
def infoG : ImageInfo := { name := "g", version := "1", ports := [] }

/-- A server volume for owner `u` and image `g:1`. -/
def volOf (vid : String) : EngVolume :=
  { vid := vid, labels := { user_id := "u", image_id := "g:1" } }

/-- A running file-browser sidecar of owner `u` for the given volume. -/
def fbC (cid vid : String) : EngContainer :=
  { cid := cid,
    labels := { user_id := "u", image_id := "g:1", volume_id := vid,
                type := ServerType.FILE_BROWSER },
    running := true, hostPorts := [], logBytes := [] }

/-- A running game container of owner `u` for the given volume, with the
given log buffer. -/
def gameC (cid vid : String) (logs : List Nat) : EngContainer :=
  { cid := cid,
    labels := { user_id := "u", image_id := "g:1", volume_id := vid,
                type := ServerType.GAME },
    running := true, hostPorts := [], logBytes := logs }

/-- C2 scenario: one server volume `v1`, nothing running. -/
def stC2 : EngineState := ⟨[imgG], [volOf "v1"], [], 0⟩

/-- C2 scenario after `delete_game_server`: the volume is gone. -/
def stC2del : EngineState := ⟨[imgG], [], [], 0⟩

/-- C3 scenario: server `v1` exists, its game container is NOT running, but a
file-browser sidecar mounted on `v1` is running. -/
def stC3 : EngineState := ⟨[imgG], [volOf "v1"], [fbC "fb1" "v1"], 0⟩

/-- C6 scenario: TWO running game containers carry the identity labels of
server `v1` — the state the consistency guarantee is about. -/
def stC6 : EngineState :=
  ⟨[imgG], [volOf "v1"], [gameC "a1" "v1" [], gameC "a2" "v1" []], 0⟩

/-- C5 scenario: owner `u` already has three running sidecars (for servers
`v1`, `v2`, `v3`) and owns a fourth server `v4` with no sidecar. -/
def stC5 : EngineState :=
  ⟨[imgG], [volOf "v1", volOf "v2", volOf "v3", volOf "v4"],
   [fbC "f1" "v1", fbC "f2" "v2", fbC "f3" "v3"], 100⟩

/-- The state `start_file_browser stC5 "v4" "u"` produces: a FOURTH sidecar
for owner `u`. -/
def stC5after : EngineState :=
  ⟨[imgG], [volOf "v1", volOf "v2", volOf "v3", volOf "v4"],
   [fbC "f1" "v1", fbC "f2" "v2", fbC "f3" "v3", fbC "r100" "v4"], 101⟩

/-- The sidecar descriptor returned for the fourth sidecar. -/
def fbInfoC5 : FileBrowserInfo :=
  { id_ := "r100", owner_id := "u", domain := "browsers.acooldomain.co",
    connected_to := ⟨"v4", "u", infoG, false, none, none⟩ }

/-- C7 scenario: server `v1` exists, no containers at all. -/
def stC7 : EngineState := ⟨[imgG], [volOf "v1"], [], 0⟩

/-- The state after the first `start_file_browser stC7 "v1" "u"`: one sidecar
`r0`. -/
def stC7after : EngineState := ⟨[imgG], [volOf "v1"], [fbC "r0" "v1"], 1⟩

/-- The sidecar descriptor the first (and second) call returns in the C7
scenario. -/
def fbInfoC7 : FileBrowserInfo :=
  { id_ := "r0", owner_id := "u", domain := "browsers.acooldomain.co",
    connected_to := ⟨"v1", "u", infoG, false, none, none⟩ }

/-- C8 witness scenario: the image catalog holds `g:1`, no servers yet. -/
def stC8 : EngineState := ⟨[imgG], [], [], 0⟩

/-- C10 scenario image: one engine image carrying TWO tags, `g:1` first and
`alias:2` second. -/
def imgT : EngImage :=
  { tags := [⟨"g", "1"⟩, ⟨"alias", "2"⟩], exposedPorts := [], workingDir := none }

/-- C10 scenario state. -/
def stT : EngineState := ⟨[imgT], [], [], 0⟩

/-- C9 scenario: server `v1` running with raw log bytes `a\r b\n`
(`[97, 13, 98, 10]`). -/
def stC9 : EngineState := ⟨[imgG], [volOf "v1"], [gameC "gc" "v1" [97, 13, 98, 10]], 0⟩

/-- A byte string on which a single left-to-right substitution pass leaves an
ANSI escape sequence behind: `ESC [ ESC [ 3 1 m 3 1 m` — the middle
`ESC [ 3 1 m` is removed and the flanking fragments reassemble into
`ESC [ 3 1 m`. -/
def ansiTrick : List Nat := [27, 91, 27, 91, 51, 49, 109, 51, 49, 109]

/-- A base runner for the wrapper scenario: its `get_image_info` answers. -/
def baseC1 : BaseRunner :=
  { getImageInfoFn := fun _ => .ok infoG,
    getServerInfoFn := fun _ => .error .engineNotFound,
    startGameServerFn := fun _ => .error .serverNotFound,
    startFileBrowserFn := fun _ _ => .error .serverNotFound,
    runCommandFn := fun _ _ => .ok [] }

/-- Legacy runner scenario: owner `u` already has three sidecars. -/
def legSt3 : LegacyState := ⟨[("u", "s1"), ("u", "s2"), ("u", "s3")]⟩

/-- Legacy runner scenario: owner `u` has one sidecar. -/
def legSt1 : LegacyState := ⟨[("u", "s1")]⟩

/-! ### Generic helper lemmas -/

theorem exBindOk {α β : Type} (x : α) (f : α → Except RunnerError β) :
    (Except.ok x >>= f) = f x := rfl

theorem exBindErr {α β : Type} (e : RunnerError) (f : α → Except RunnerError β) :
    ((Except.error e : Except RunnerError α) >>= f) = Except.error e := rfl

theorem find?_append_left {α : Type} (p : α → Bool) (l1 l2 : List α)
    (h : (l1.find? p).isSome) : (l1 ++ l2).find? p = l1.find? p := by
  induction l1 with
  | nil => simp at h
  | cons a t ih =>
      by_cases hp : p a
      · simp [List.find?, hp]
      · simp only [List.find?, hp] at h ⊢
        simp only [Bool.false_eq_true, if_neg] at *
        exact ih h

theorem find?_append_right {α : Type} (p : α → Bool) (l1 l2 : List α)
    (h : l1.find? p = none) : (l1 ++ l2).find? p = l2.find? p := by
  induction l1 with
  | nil => simp
  | cons a t ih =>
      by_cases hp : p a
      · simp [List.find?, hp] at h
      · simp only [List.find?, hp] at h ⊢
        exact ih h

theorem length_filter_and_le {α : Type} (p q : α → Bool) (l : List α) :
    (l.filter (fun a => p a && q a)).length ≤ (l.filter p).length := by
  induction l with
  | nil => simp
  | cons a t ih =>
      by_cases hp : p a <;> by_cases hq : q a <;>
        simp [List.filter, hp, hq] <;> omega

theorem mapM_congr {α β : Type} (l : List α) (f g : α → Except RunnerError β)
    (h : ∀ a ∈ l, f a = g a) : l.mapM f = l.mapM g := by
  induction l with
  | nil => rfl
  | cons a t ih =>
      have ha := h a (by simp)
      have ht := ih (fun x hx => h x (by simp [hx]))
      simp only [List.mapM_cons, ha, ht]

theorem mapM_append_singleton {α β : Type} (l : List α) (w : α)
    (f : α → Except RunnerError β) (res : List β) (hw : l.mapM f = .ok res)
    (b : β) (hb : f w = .ok b) : (l ++ [w]).mapM f = .ok (res ++ [b]) := by
  induction l generalizing res with
  | nil =>
      have hres : res = [] := by
        simp only [List.mapM_nil] at hw
        exact (Except.ok.inj hw).symm
      subst hres
      rw [List.nil_append, List.mapM_cons, hb]
      rfl
  | cons a t ih =>
      simp only [List.mapM_cons] at hw
      simp only [List.cons_append, List.mapM_cons]
      cases hfa : f a with
      | error e => rw [hfa] at hw; simp [Except.bind, bind] at hw
      | ok y =>
          rw [hfa] at hw
          simp only [exBindOk] at hw ⊢
          cases hft : t.mapM f with
          | error e =>
              rw [hft] at hw
              simp [Except.bind, bind] at hw
          | ok ys =>
              rw [hft] at hw
              simp only [exBindOk] at hw
              have hres : res = y :: ys := (Except.ok.inj hw).symm
              subst hres
              rw [ih ys hft]
              simp [exBindOk]

/-! ### Fuel irrelevance: the explicit fuel never influences the result -/

theorem stripAnsiF_congr (f1 : Nat) :
    ∀ (f2 : Nat) (bs : List Nat), bs.length ≤ f1 → bs.length ≤ f2 →
      stripAnsiF f1 bs = stripAnsiF f2 bs := by
  induction f1 with
  | zero =>
      intro f2 bs h1 _
      have : bs = [] := List.eq_nil_of_length_eq_zero (Nat.le_antisymm h1 (Nat.zero_le _))
      subst this
      cases f2 <;> rfl
  | succ n ih =>
      intro f2 bs h1 h2
      cases bs with
      | nil => cases f2 <;> rfl
      | cons b rest =>
          cases f2 with
          | zero => simp at h2
          | succ m =>
              simp only [stripAnsiF]
              cases hm : ansiMatchAt (b :: rest) with
              | none =>
                  simp only [List.length_cons, Nat.succ_le_succ_iff] at h1 h2
                  rw [ih m rest h1 h2]
              | some k =>
                  simp only [List.length_cons, Nat.succ_le_succ_iff] at h1 h2
                  have hd : (rest.drop (k - 1)).length ≤ rest.length := by
                    rw [List.length_drop]; omega
                  exact ih m (rest.drop (k - 1)) (le_trans hd h1) (le_trans hd h2)

/-- Any fuel at least the input length computes `stripAnsi`. -/
theorem stripAnsiF_fuel (fuel : Nat) (bs : List Nat) (h : bs.length ≤ fuel) :
    stripAnsiF fuel bs = stripAnsi bs :=
  stripAnsiF_congr fuel bs.length bs h (le_refl _)

theorem runCommandLoop_congr (polls : List Bool) (stream : List (List Nat)) (f1 : Nat) :
    ∀ (f2 pollIdx streamIdx lines retriesN : Nat) (acc : List (List Nat)),
      7 * lines + retriesN ≤ f1 → 7 * lines + retriesN ≤ f2 →
      runCommandLoop polls stream f1 pollIdx streamIdx lines retriesN acc =
        runCommandLoop polls stream f2 pollIdx streamIdx lines retriesN acc := by
  induction f1 with
  | zero =>
      intro f2 pollIdx streamIdx lines retriesN acc h1 _
      have hl : lines = 0 := by omega
      subst hl
      cases f2 <;> rfl
  | succ n ih =>
      intro f2 pollIdx streamIdx lines retriesN acc h1 h2
      cases lines with
      | zero => cases f2 <;> rfl
      | succ l =>
          cases f2 with
          | zero => omega
          | succ m =>
              simp only [runCommandLoop]
              cases hp : polls.getD pollIdx false with
              | true =>
                  simp only [if_pos]
                  exact ih m (pollIdx + 1) (streamIdx + 1) l retriesN _ (by omega) (by omega)
              | false =>
                  simp only [Bool.false_eq_true, if_neg]
                  cases retriesN with
                  | zero => rfl
                  | succ r =>
                      exact ih m (pollIdx + 1) streamIdx (l + 1) r acc (by omega) (by omega)

/-- Any fuel at least `7 * lines + retriesN` (an upper bound on the number of
loop iterations) computes the same loop result; in particular the `146` used
by `runCommandCollect` never cuts the loop short. -/
theorem runCommandLoop_fuel (polls : List Bool) (stream : List (List Nat))
    (fuel pollIdx streamIdx lines retriesN : Nat) (acc : List (List Nat))
    (h : 7 * lines + retriesN ≤ fuel) :
    runCommandLoop polls stream fuel pollIdx streamIdx lines retriesN acc =
      runCommandLoop polls stream (7 * lines + retriesN) pollIdx streamIdx lines retriesN acc :=
  runCommandLoop_congr polls stream fuel _ _ _ _ _ acc h (le_refl _)

/-! ### Characterization lemmas for the runner operations -/

theorem volumesGet_ok {st : EngineState} {sid : String} {v : EngVolume}
    (h : volumesGet st sid = .ok v) : v.vid = sid ∧ v ∈ st.volumes := by
  unfold volumesGet at h
  cases hf : st.volumes.find? (fun x => x.vid == sid) with
  | none => rw [hf] at h; exact absurd h (by simp)
  | some w =>
      rw [hf] at h
      have hw : w = v := Except.ok.inj h
      subst hw
      refine ⟨?_, List.mem_of_find?_eq_some hf⟩
      have := List.find?_some hf
      exact eq_of_beq this

theorem imagesGet_ok {st : EngineState} {iid : String} {img : EngImage}
    (h : imagesGet st iid = .ok img) : img ∈ st.images := by
  unfold imagesGet at h
  cases hf : st.images.find? (fun i => i.tags.any (fun t => t.id_ == iid)) with
  | none => rw [hf] at h; exact absurd h (by simp)
  | some w =>
      rw [hf] at h
      have hw : w = img := Except.ok.inj h
      subst hw
      exact List.mem_of_find?_eq_some hf

theorem imagesGet_isOk_of_tag {st : EngineState} {img : EngImage} {t : ImageTag}
    (hm : img ∈ st.images) (ht : t ∈ img.tags) :
    ∃ img2, imagesGet st t.id_ = .ok img2 := by
  unfold imagesGet
  cases hf : st.images.find? (fun i => i.tags.any (fun s => s.id_ == t.id_)) with
  | some w => exact ⟨w, rfl⟩
  | none =>
      exfalso
      have : ∀ i ∈ st.images, ¬ (i.tags.any (fun s => s.id_ == t.id_) = true) :=
        fun i hi => by
          have := List.find?_eq_none.mp hf i hi
          simpa using this
      exact this img hm (List.any_eq_true.mpr ⟨t, ht, by simp⟩)

theorem get_image_info_ok_elim {st : EngineState} {iid : String} {info : ImageInfo}
    (h : get_image_info st iid = .ok info) :
    ∃ img t ts, imagesGet st iid = .ok img ∧ img.tags = t :: ts ∧
      info = ⟨t.name, t.version, img.exposedPorts.dedup⟩ := by
  unfold get_image_info at h
  cases hg : imagesGet st iid with
  | error e => rw [hg, exBindErr] at h; exact absurd h (by simp)
  | ok img =>
      rw [hg, exBindOk] at h
      cases htags : img.tags with
      | nil =>
          unfold extractImageInfoFromImage at h
          rw [htags] at h
          exact absurd h (by simp)
      | cons t ts =>
          unfold extractImageInfoFromImage at h
          rw [htags] at h
          simp only [List.map_cons] at h
          exact ⟨img, t, ts, rfl, htags, (Except.ok.inj h).symm⟩

theorem get_image_info_ok_self_isOk {st : EngineState} {iid : String} {info : ImageInfo}
    (h : get_image_info st iid = .ok info) :
    ∃ img2, imagesGet st info.id_ = .ok img2 := by
  obtain ⟨img, t, ts, hg, htags, hinfo⟩ := get_image_info_ok_elim h
  have hmem := imagesGet_ok hg
  have ht : t ∈ img.tags := by rw [htags]; exact List.mem_cons_self t ts
  have : info.id_ = t.id_ := by rw [hinfo]; rfl
  rw [this]
  exact imagesGet_isOk_of_tag hmem ht

theorem getServerContainer_ok_elim {st : EngineState} {si : ServerInfo}
    {ty : ServerType} {u : Option String} {c? : Option EngContainer}
    (h : getServerContainer st si ty u = .ok c?) :
    (containersList st (serverContainerFilter si ty u)).length ≤ 1 ∧
    c? = (containersList st (serverContainerFilter si ty u)).head? := by
  unfold getServerContainer at h
  by_cases hl : (containersList st (serverContainerFilter si ty u)).length > 1
  · rw [if_pos hl] at h
    exact absurd h (by simp)
  · rw [if_neg hl] at h
    exact ⟨by omega, (Except.ok.inj h).symm⟩

theorem gsi_ok_elim {st : EngineState} {sid : String} {si : ServerInfo}
    (h : get_server_info st sid none = .ok si) :
    ∃ vol img, volumesGet st sid = .ok vol ∧
      get_image_info st vol.labels.image_id = .ok img ∧
      si.id_ = vol.vid ∧ si.user_id = vol.labels.user_id ∧ si.image = img ∧
      (gameContainersFor st vol.vid img.id_).length ≤ 1 ∧
      ((gameContainersFor st vol.vid img.id_ = [] ∧
          si = ⟨vol.vid, vol.labels.user_id, img, false, none, none⟩) ∨
       (∃ c, (gameContainersFor st vol.vid img.id_).head? = some c ∧
          si = ⟨vol.vid, vol.labels.user_id, img, true, some DOMAIN, some c.hostPorts⟩)) := by
  cases hv : volumesGet st sid with
  | error e =>
      simp only [get_server_info, hv, exBindErr] at h
      exact absurd h (by simp)
  | ok vol =>
      cases hi : get_image_info st vol.labels.image_id with
      | error e =>
          simp only [get_server_info, hv, hi, exBindOk, exBindErr] at h
          exact absurd h (by simp)
      | ok img =>
          cases hc : getServerContainer st ⟨vol.vid, vol.labels.user_id, img, false, none, none⟩
              ServerType.GAME none with
          | error e =>
              simp only [get_server_info, hv, hi, hc, exBindOk, exBindErr] at h
              exact absurd h (by simp)
          | ok c? =>
              simp only [get_server_info, hv, hi, hc, exBindOk] at h
              obtain ⟨hlen, hhead⟩ := getServerContainer_ok_elim hc
              cases c? with
              | none =>
                  have h2 : Except.ok (⟨vol.vid, vol.labels.user_id, img, false, none, none⟩ :
                      ServerInfo) = Except.ok si := h
                  have hsi := (Except.ok.inj h2).symm
                  refine ⟨vol, img, rfl, hi, ?_, ?_, ?_, hlen, Or.inl ⟨?_, hsi⟩⟩
                  · rw [hsi]
                  · rw [hsi]
                  · rw [hsi]
                  · exact List.head?_eq_none_iff.mp hhead.symm
              | some c =>
                  have h2 : Except.ok (⟨vol.vid, vol.labels.user_id, img, true, some DOMAIN,
                      some (extractPortsFromContainer c)⟩ : ServerInfo) = Except.ok si := h
                  have hsi := (Except.ok.inj h2).symm
                  refine ⟨vol, img, rfl, hi, ?_, ?_, ?_, hlen, Or.inr ⟨c, hhead.symm, hsi⟩⟩
                  · rw [hsi]
                  · rw [hsi]
                  · rw [hsi]

/-- The liveness flag a successful `get_server_info` reports is exactly
"some running game container with the server's identity labels exists", and
that lookup was unique. -/
theorem gsi_ok_on_iff {st : EngineState} {sid : String} {si : ServerInfo}
    (h : get_server_info st sid none = .ok si) :
    (si.«on» = true ↔ gameContainersFor st si.id_ si.image.id_ ≠ []) ∧
    (gameContainersFor st si.id_ si.image.id_).length ≤ 1 := by
  obtain ⟨vol, img, _hv, _hi, hvid, _huid, himg, hlen, hcases⟩ := gsi_ok_elim h
  have harg : gameContainersFor st si.id_ si.image.id_ = gameContainersFor st vol.vid img.id_ := by
    rw [hvid, himg]
  rw [harg]
  refine ⟨?_, hlen⟩
  cases hcases with
  | inl hc =>
      obtain ⟨hnil, hsi⟩ := hc
      constructor
      · intro hon
        rw [hsi] at hon
        exact absurd hon (by simp)
      · intro hne
        exact absurd hnil hne
  | inr hc =>
      obtain ⟨c, hhead, hsi⟩ := hc
      constructor
      · intro _
        intro hnil
        rw [hnil] at hhead
        exact absurd hhead (by simp)
      · intro _
        rw [hsi]

theorem imagesGet_error_eq {st : EngineState} {iid : String} {e : RunnerError}
    (h : imagesGet st iid = .error e) : e = .engineImageNotFound := by
  unfold imagesGet at h
  cases hf : st.images.find? (fun i => i.tags.any (fun t => t.id_ == iid)) with
  | none => rw [hf] at h; exact (Except.error.inj h).symm
  | some w => rw [hf] at h; exact absurd h (by simp)

/-- `get_server_info` only reads the engine's volumes, images and containers;
two states that agree on volumes and images and whose game-container lookups
agree give the same answer. -/
theorem gsi_congr {st1 st : EngineState}
    (hvols : st1.volumes = st.volumes) (himgs : st1.images = st.images)
    (hcont : ∀ si : ServerInfo,
      containersList st1 (serverContainerFilter si ServerType.GAME none) =
        containersList st (serverContainerFilter si ServerType.GAME none))
    (sid : String) :
    get_server_info st1 sid none = get_server_info st sid none := by
  have h1 : volumesGet st1 sid = volumesGet st sid := by
    unfold volumesGet; rw [hvols]
  unfold get_server_info
  rw [h1]
  cases hv : volumesGet st sid with
  | error e => rfl
  | ok vol =>
      simp only [exBindOk]
      have h2 : get_image_info st1 vol.labels.image_id =
          get_image_info st vol.labels.image_id := by
        unfold get_image_info imagesGet; rw [himgs]
      rw [h2]
      cases hi : get_image_info st vol.labels.image_id with
      | error e => rfl
      | ok img =>
          simp only [exBindOk]
          have h3 : getServerContainer st1 ⟨vol.vid, vol.labels.user_id, img, false, none, none⟩
              ServerType.GAME none =
              getServerContainer st ⟨vol.vid, vol.labels.user_id, img, false, none, none⟩
              ServerType.GAME none := by
            unfold getServerContainer
            rw [hcont ⟨vol.vid, vol.labels.user_id, img, false, none, none⟩]
          rw [h3]

/-- Appending a container that carries the `FILE-BROWSER` kind label never
changes a game-container lookup. -/
theorem containersList_game_append_fb {st : EngineState} {c : EngContainer}
    (hty : c.labels.type = ServerType.FILE_BROWSER) (nf : Nat)
    (si : ServerInfo) :
    containersList ⟨st.images, st.volumes, st.containers ++ [c], nf⟩
        (serverContainerFilter si ServerType.GAME none) =
      containersList st (serverContainerFilter si ServerType.GAME none) := by
  unfold containersList
  show (st.containers ++ [c]).filter _ = st.containers.filter _
  rw [List.filter_append]
  have : (List.filter (fun x => x.running &&
      containerMatches (serverContainerFilter si ServerType.GAME none) x) [c]) = [] := by
    simp [containerMatches, serverContainerFilter, optMatch, hty]
  rw [this, List.append_nil]

/-- `start_game_server` raises `ServerAlreadyRunning` exactly when a running
game container with the server's identity labels exists. -/
theorem start_SAR_iff {st : EngineState} {sid : String} {si : ServerInfo}
    (ports : Option (List (PortM × Option PortM)))
    (h : get_server_info st sid none = .ok si) :
    (start_game_server st sid ports = .error .serverAlreadyRunning ↔
      gameContainersFor st si.id_ si.image.id_ ≠ []) := by
  obtain ⟨hon, _⟩ := gsi_ok_on_iff h
  cases hsion : si.«on» with
  | true =>
      have hne := hon.mp hsion
      simp only [start_game_server, h, exBindOk, hsion, if_true]
      exact ⟨fun _ => hne, fun _ => trivial⟩
  | false =>
      have hnil : gameContainersFor st si.id_ si.image.id_ = [] := by
        by_contra hne
        rw [hon.mpr hne] at hsion
        exact absurd hsion (by simp)
      simp only [start_game_server, h, exBindOk, hsion, Bool.false_eq_true, if_false]
      constructor
      · intro hs
        exfalso
        cases himg : imagesGet st si.image.id_ with
        | error e =>
            rw [himg, exBindErr] at hs
            have := imagesGet_error_eq himg
            subst this
            exact absurd (Except.error.inj hs) (by simp)
        | ok img =>
            rw [himg, exBindOk] at hs
            exact absurd hs (by simp)
      · intro hne
        exact absurd hnil hne

/-- Dissection of a successful `start_game_server`: the pre-state had no
running game container for the server, and the post-state is the pre-state
plus one freshly created, running, fully labelled game container. -/
theorem start_ok_elim {st : EngineState} {sid : String}
    {ports : Option (List (PortM × Option PortM))} {st1 : EngineState} {si1 : ServerInfo}
    (h : start_game_server st sid ports = .ok (st1, si1)) :
    ∃ si hostPorts, get_server_info st sid none = .ok si ∧ si.«on» = false ∧
      st1 = ⟨st.images, st.volumes, st.containers ++
        [⟨freshId st, ⟨si.user_id, si.image.id_, si.id_, ServerType.GAME⟩, true, hostPorts, []⟩],
        st.fresh + 1⟩ := by
  cases hv : get_server_info st sid none with
  | error e =>
      simp only [start_game_server, hv, exBindErr] at h
      exact absurd h (by simp)
  | ok si =>
      cases hsion : si.«on» with
      | true =>
          simp only [start_game_server, hv, exBindOk, hsion, if_true] at h
          exact absurd h (by simp)
      | false =>
          simp only [start_game_server, hv, exBindOk, hsion, Bool.false_eq_true, if_false] at h
          cases himg : imagesGet st si.image.id_ with
          | error e =>
              rw [himg, exBindErr] at h
              exact absurd h (by simp)
          | ok img =>
              rw [himg, exBindOk] at h
              refine ⟨si, ((match ports with
                  | none => si.image.ports.map (fun p => (p, none))
                  | some m => m).map (fun (q : PortM × Option PortM) => q.1)), rfl, hsion, ?_⟩
              exact (congrArg Prod.fst (Except.ok.inj h)).symm

/-- After a successful start, the server's game-container lookup finds
exactly the created container, so `get_server_info` reports it running. -/
theorem start_ok_second_gsi {st : EngineState} {sid : String}
    {ports : Option (List (PortM × Option PortM))} {st1 : EngineState} {si1 : ServerInfo}
    (h : start_game_server st sid ports = .ok (st1, si1)) :
    ∃ si', get_server_info st1 sid none = .ok si' ∧ si'.«on» = true := by
  obtain ⟨si, hp, hv, hsion, hst1⟩ := start_ok_elim h
  obtain ⟨vol, img, hvol, himg, hvid, huid, himage, _hlen, hcases⟩ := gsi_ok_elim hv
  have hnil : gameContainersFor st vol.vid img.id_ = [] := by
    cases hcases with
    | inl hc => exact hc.1
    | inr hc =>
        obtain ⟨c, hhead, hsi⟩ := hc
        rw [hsi] at hsion
        exact absurd hsion (by simp)
  have hv1 : volumesGet st1 sid = .ok vol := by
    rw [hst1]
    exact hvol
  have hi1 : get_image_info st1 vol.labels.image_id = .ok img := by
    rw [hst1]
    exact himg
  have hm : containerMatches (serverContainerFilter
      ⟨vol.vid, vol.labels.user_id, img, false, none, none⟩ ServerType.GAME none)
      ⟨freshId st, ⟨si.user_id, si.image.id_, si.id_, ServerType.GAME⟩, true, hp, []⟩ = true := by
    show (optMatch none si.user_id && optMatch (some (ImageInfo.id_ img)) si.image.id_ &&
      optMatch (some vol.vid) si.id_ &&
      (ServerType.GAME == ServerType.GAME)) = true
    rw [himage, hvid]
    simp [optMatch]
  have hmatch : (containersList st1
      (serverContainerFilter ⟨vol.vid, vol.labels.user_id, img, false, none, none⟩
        ServerType.GAME none)) =
      [⟨freshId st, ⟨si.user_id, si.image.id_, si.id_, ServerType.GAME⟩, true, hp, []⟩] := by
    rw [hst1]
    show (st.containers ++ [_]).filter _ = _
    rw [List.filter_append]
    have h1 : st.containers.filter (fun c => c.running &&
        containerMatches (serverContainerFilter
          ⟨vol.vid, vol.labels.user_id, img, false, none, none⟩ ServerType.GAME none) c) = [] :=
      hnil
    rw [h1, List.nil_append]
    simp [hm]
  have hc1 : getServerContainer st1 ⟨vol.vid, vol.labels.user_id, img, false, none, none⟩
      ServerType.GAME none =
      .ok (some ⟨freshId st, ⟨si.user_id, si.image.id_, si.id_, ServerType.GAME⟩, true, hp, []⟩) := by
    unfold getServerContainer
    rw [hmatch]
    rfl
  refine ⟨⟨vol.vid, vol.labels.user_id, img, true, some DOMAIN, some hp⟩, ?_, rfl⟩
  simp only [get_server_info, hv1, hi1, hc1, exBindOk]
  rfl

/-- A successful start followed by another start without an intervening stop:
the second start raises `ServerAlreadyRunning`. -/
theorem start_twice_SAR {st : EngineState} {sid : String}
    {ports ports2 : Option (List (PortM × Option PortM))} {st1 : EngineState} {si1 : ServerInfo}
    (h : start_game_server st sid ports = .ok (st1, si1)) :
    start_game_server st1 sid ports2 = .error .serverAlreadyRunning := by
  obtain ⟨si', hgsi, hon⟩ := start_ok_second_gsi h
  simp only [start_game_server, hgsi, exBindOk, hon, if_true]

/-- `stop_game_server` raises `ServerNotRunning` exactly when no running game
container with the server's identity labels exists. -/
theorem stop_SNR_iff {st : EngineState} {sid : String} {si : ServerInfo}
    (h : get_server_info st sid none = .ok si) :
    (stop_game_server st sid = .error .serverNotRunning ↔
      gameContainersFor st si.id_ si.image.id_ = []) := by
  obtain ⟨hon, hlen⟩ := gsi_ok_on_iff h
  cases hsion : si.«on» with
  | false =>
      have hnil : gameContainersFor st si.id_ si.image.id_ = [] := by
        by_contra hne
        rw [hon.mpr hne] at hsion
        exact absurd hsion (by simp)
      simp only [stop_game_server, h, exBindOk, hsion, Bool.not_false, if_true]
      exact ⟨fun _ => hnil, fun _ => trivial⟩
  | true =>
      have hne := hon.mp hsion
      simp only [stop_game_server, h, exBindOk, hsion, Bool.not_true, Bool.false_eq_true, if_false]
      have hlen' : (containersList st (serverContainerFilter si ServerType.GAME none)).length ≤ 1 :=
        hlen
      constructor
      · intro hs
        cases hl : containersList st (serverContainerFilter si ServerType.GAME none) with
        | nil => exact hl
        | cons c cs =>
            exfalso
            have hc : getServerContainer st si ServerType.GAME none = .ok (some c) := by
              unfold getServerContainer
              rw [hl] at hlen' ⊢
              have hn : ¬ (c :: cs).length > 1 := by
                simp only [List.length_cons] at hlen' ⊢
                omega
              rw [if_neg hn]
              rfl
            rw [hc, exBindOk] at hs
            -- the stopped state: the container list loses (at least) `c`
            obtain ⟨vol, img, hvol, himg, hvid, _huid, himage, _hlen0, _hcases⟩ := gsi_ok_elim h
            have hv2 : volumesGet (containerStop st c.cid) sid = .ok vol := hvol
            have hi2 : get_image_info (containerStop st c.cid) vol.labels.image_id = .ok img :=
              himg
            have hb : (containersList (containerStop st c.cid)
                (serverContainerFilter ⟨vol.vid, vol.labels.user_id, img, false, none, none⟩
                  ServerType.GAME none)).length ≤ 1 := by
              have heq : containersList (containerStop st c.cid)
                  (serverContainerFilter ⟨vol.vid, vol.labels.user_id, img, false, none, none⟩
                    ServerType.GAME none) =
                  st.containers.filter (fun a =>
                    (a.running && containerMatches (serverContainerFilter
                      ⟨vol.vid, vol.labels.user_id, img, false, none, none⟩
                      ServerType.GAME none) a) && (a.cid != c.cid)) := by
                unfold containersList containerStop
                exact List.filter_filter _ _
              rw [heq]
              refine le_trans (length_filter_and_le _ _ _) ?_
              have hfilter : serverContainerFilter si ServerType.GAME none =
                  serverContainerFilter ⟨vol.vid, vol.labels.user_id, img, false, none, none⟩
                    ServerType.GAME none := by
                unfold serverContainerFilter
                rw [hvid, himage]
              rw [← hfilter]
              exact hlen'
            have hc2 : ∃ c?2, getServerContainer (containerStop st c.cid)
                ⟨vol.vid, vol.labels.user_id, img, false, none, none⟩
                ServerType.GAME none = .ok c?2 := by
              unfold getServerContainer
              rw [if_neg (by omega)]
              exact ⟨_, rfl⟩
            obtain ⟨c?2, hc2⟩ := hc2
            have hg2 : ∃ si2, get_server_info (containerStop st c.cid) sid none = .ok si2 := by
              cases c?2 with
              | none =>
                  exact ⟨⟨vol.vid, vol.labels.user_id, img, false, none, none⟩, by
                    simp only [get_server_info, hv2, hi2, hc2, exBindOk]⟩
              | some c2 =>
                  exact ⟨⟨vol.vid, vol.labels.user_id, img, true, some DOMAIN,
                      some (extractPortsFromContainer c2)⟩, by
                    simp only [get_server_info, hv2, hi2, hc2, exBindOk]⟩
            obtain ⟨si2, hg2⟩ := hg2
            simp only [hg2, exBindOk] at hs
            exact absurd hs (by simp)
      · intro hnil
        exact absurd (hon.mp hsion) (by rw [hnil]; simp)

/-- `get_server_logs` raises `ServerNotRunning` exactly when no running game
container with the server's identity labels exists. -/
theorem logs_SNR_iff {st : EngineState} {sid : String} {si : ServerInfo}
    (lim : Option Nat) (h : get_server_info st sid none = .ok si) :
    (get_server_logs st sid lim = .error .serverNotRunning ↔
      gameContainersFor st si.id_ si.image.id_ = []) := by
  obtain ⟨hon, hlen⟩ := gsi_ok_on_iff h
  have hlen' : (containersList st (serverContainerFilter si ServerType.GAME none)).length ≤ 1 :=
    hlen
  cases hl : containersList st (serverContainerFilter si ServerType.GAME none) with
  | nil =>
      have hc : getServerContainer st si ServerType.GAME none = .ok none := by
        unfold getServerContainer
        rw [hl]
        rfl
      simp only [get_server_logs, h, hc, exBindOk]
      exact ⟨fun _ => hl, fun _ => trivial⟩
  | cons c cs =>
      have hc : getServerContainer st si ServerType.GAME none = .ok (some c) := by
        unfold getServerContainer
        rw [hl] at hlen' ⊢
        have hn : ¬ (c :: cs).length > 1 := by
          simp only [List.length_cons] at hlen' ⊢
          omega
        rw [if_neg hn]
        rfl
      simp only [get_server_logs, h, hc, exBindOk]
      constructor
      · intro hs
        exact absurd hs (by simp)
      · intro hnil
        have hl2 : gameContainersFor st si.id_ si.image.id_ = c :: cs := hl
        rw [hnil] at hl2
        exact absurd hl2 (by simp)

/-- `run_command` raises `ServerNotRunning` exactly when NO running container
at all carries the server's volume-id label — regardless of the container's
kind. -/
theorem runCommand_SNR_iff (st : EngineState) (sid cmd : String)
    (polls : List Bool) (stream : List (List Nat)) :
    run_command st sid cmd polls stream = .error .serverNotRunning ↔
      containersList st { volume_id := some sid } = [] := by
  cases hl : containersList st { volume_id := some sid } with
  | nil =>
      simp only [run_command, runCommandResolve, hl]
      simp [exBindErr]
  | cons c cs =>
      simp only [run_command, runCommandResolve, hl, exBindOk]
      constructor
      · intro hs
        exact absurd hs (by simp)
      · intro hnil
        exact absurd hnil (by simp)

/-- Dissection of a successful `start_file_browser`: either a sidecar with the
(owner, server) identity labels existed and is returned with the state
untouched, or none existed and exactly one new sidecar container is created
and returned. -/
theorem sfb_ok_cases {st : EngineState} {sid owner : String} {pw : Option String}
    {st1 : EngineState} {info1 : FileBrowserInfo}
    (h : start_file_browser st sid owner pw = .ok (st1, info1)) :
    ∃ si, get_server_info st sid none = .ok si ∧
      ((∃ c, getServerContainer st si ServerType.FILE_BROWSER (some owner) = .ok (some c) ∧
          st1 = st ∧ info1 = ⟨c.cid.take 12, owner, "browsers." ++ DOMAIN, si⟩) ∨
       (getServerContainer st si ServerType.FILE_BROWSER (some owner) = .ok none ∧
          st1 = ⟨st.images, st.volumes, st.containers ++
            [⟨freshId st, ⟨owner, si.image.id_, si.id_, ServerType.FILE_BROWSER⟩, true, [], []⟩],
            st.fresh + 1⟩ ∧
          info1 = ⟨(freshId st).take 12, owner, "browsers." ++ DOMAIN, si⟩)) := by
  cases hv : get_server_info st sid none with
  | error e =>
      simp only [start_file_browser, hv, exBindErr] at h
      exact absurd h (by simp)
  | ok si =>
      cases hc : getServerContainer st si ServerType.FILE_BROWSER (some owner) with
      | error e =>
          simp only [start_file_browser, hv, hc, exBindOk, exBindErr] at h
          exact absurd h (by simp)
      | ok c? =>
          simp only [start_file_browser, hv, hc, exBindOk] at h
          cases c? with
          | some c =>
              have h2 := Except.ok.inj h
              refine ⟨si, rfl, Or.inl ⟨c, hc, ?_, ?_⟩⟩
              · exact (congrArg Prod.fst h2).symm
              · exact (congrArg Prod.snd h2).symm
          | none =>
              have h2 := Except.ok.inj h
              refine ⟨si, rfl, Or.inr ⟨hc, ?_, ?_⟩⟩
              · exact (congrArg Prod.fst h2).symm
              · exact (congrArg Prod.snd h2).symm

/-- A successful `start_file_browser` is a fixed point: calling it again for
the same (server, owner) pair returns the very same state (no container
created) and the very same sidecar descriptor. -/
theorem sfb_idempotent_general {st : EngineState} {sid owner : String} {pw : Option String}
    {st1 : EngineState} {info1 : FileBrowserInfo}
    (h : start_file_browser st sid owner pw = .ok (st1, info1)) :
    start_file_browser st1 sid owner pw = .ok (st1, info1) := by
  obtain ⟨si, hv, hcase⟩ := sfb_ok_cases h
  cases hcase with
  | inl hreuse =>
      obtain ⟨c, hc, hst1, hinfo1⟩ := hreuse
      subst hst1
      simp only [start_file_browser, hv, hc, exBindOk]
      rw [hinfo1]
  | inr hcreate =>
      obtain ⟨hc, hst1, hinfo1⟩ := hcreate
      have hgsi1 : get_server_info st1 sid none = get_server_info st sid none := by
        refine gsi_congr ?_ ?_ ?_ sid
        · rw [hst1]
        · rw [hst1]
        · intro si'
          rw [hst1]
          exact containersList_game_append_fb rfl (st.fresh + 1) si'
      have hv1 : get_server_info st1 sid none = .ok si := by rw [hgsi1]; exact hv
      obtain ⟨hlen0, hhead0⟩ := getServerContainer_ok_elim hc
      have hnil0 : containersList st (serverContainerFilter si ServerType.FILE_BROWSER
          (some owner)) = [] :=
        List.head?_eq_none_iff.mp hhead0.symm
      have hm : containerMatches (serverContainerFilter si ServerType.FILE_BROWSER (some owner))
          ⟨freshId st, ⟨owner, si.image.id_, si.id_, ServerType.FILE_BROWSER⟩, true, [], []⟩ =
          true := by
        show (optMatch (some owner) owner && optMatch (some si.image.id_) si.image.id_ &&
          optMatch (some si.id_) si.id_ &&
          (ServerType.FILE_BROWSER == ServerType.FILE_BROWSER)) = true
        simp [optMatch]
      have hlist1 : containersList st1 (serverContainerFilter si ServerType.FILE_BROWSER
          (some owner)) =
          [⟨freshId st, ⟨owner, si.image.id_, si.id_, ServerType.FILE_BROWSER⟩, true, [], []⟩] := by
        rw [hst1]
        show (st.containers ++ [_]).filter _ = _
        have h1 : st.containers.filter (fun c => c.running &&
            containerMatches (serverContainerFilter si ServerType.FILE_BROWSER (some owner)) c)
            = [] := hnil0
        rw [List.filter_append, h1, List.nil_append]
        simp [hm]
      have hc1 : getServerContainer st1 si ServerType.FILE_BROWSER (some owner) =
          .ok (some ⟨freshId st, ⟨owner, si.image.id_, si.id_, ServerType.FILE_BROWSER⟩,
            true, [], []⟩) := by
        unfold getServerContainer
        rw [hlist1]
        rfl
      simp only [start_file_browser, hv1, hc1, exBindOk]
      rw [hinfo1]

/-- Appending a fresh volume does not change `get_server_info` for any server
id that already resolves among the existing volumes. -/
theorem gsi_append_volume {st : EngineState} (w : EngVolume) (nf : Nat) (sid : String)
    (h : (st.volumes.find? (fun v => v.vid == sid)).isSome) :
    get_server_info ⟨st.images, st.volumes ++ [w], st.containers, nf⟩ sid none =
      get_server_info st sid none := by
  have h1 : volumesGet ⟨st.images, st.volumes ++ [w], st.containers, nf⟩ sid =
      volumesGet st sid := by
    unfold volumesGet
    have h2 : (⟨st.images, st.volumes ++ [w], st.containers, nf⟩ : EngineState).volumes =
        st.volumes ++ [w] := rfl
    rw [h2, find?_append_left _ _ _ h]
  unfold get_server_info
  rw [h1]
  cases hv : volumesGet st sid with
  | error e => rfl
  | ok vol =>
      simp only [exBindOk]
      have h2 : get_image_info ⟨st.images, st.volumes ++ [w], st.containers, nf⟩
          vol.labels.image_id = get_image_info st vol.labels.image_id := rfl
      rw [h2]
      cases hi : get_image_info st vol.labels.image_id with
      | error e => rfl
      | ok img =>
          simp only [exBindOk]
          have h3 : getServerContainer ⟨st.images, st.volumes ++ [w], st.containers, nf⟩
              ⟨vol.vid, vol.labels.user_id, img, false, none, none⟩ ServerType.GAME none =
              getServerContainer st ⟨vol.vid, vol.labels.user_id, img, false, none, none⟩
              ServerType.GAME none := rfl
          rw [h3]

/-- The volume `create_game_server` just created resolves to a Server with
`running = false` and the labels it was given. -/
theorem gsi_new_volume (st : EngineState) (uid imgid : String) (info : ImageInfo)
    (himg : get_image_info st imgid = .ok info)
    (hfreshV : ∀ v ∈ st.volumes, v.vid ≠ freshId st)
    (hfreshC : ∀ c ∈ st.containers, c.labels.volume_id ≠ freshId st) :
    get_server_info
      ⟨st.images, st.volumes ++ [⟨freshId st, ⟨uid, imgid⟩⟩], st.containers, st.fresh + 1⟩
      (freshId st) none = .ok ⟨freshId st, uid, info, false, none, none⟩ := by
  have hnone : st.volumes.find? (fun v => v.vid == freshId st) = none := by
    rw [List.find?_eq_none]
    intro v hv
    simp only [beq_iff_eq]
    exact hfreshV v hv
  have hv : volumesGet
      ⟨st.images, st.volumes ++ [⟨freshId st, ⟨uid, imgid⟩⟩], st.containers, st.fresh + 1⟩
      (freshId st) = .ok ⟨freshId st, ⟨uid, imgid⟩⟩ := by
    unfold volumesGet
    have h2 : (⟨st.images, st.volumes ++ [⟨freshId st, ⟨uid, imgid⟩⟩], st.containers,
        st.fresh + 1⟩ : EngineState).volumes = st.volumes ++ [⟨freshId st, ⟨uid, imgid⟩⟩] := rfl
    rw [h2, find?_append_right _ _ _ hnone]
    simp [List.find?]
  have hi : get_image_info
      ⟨st.images, st.volumes ++ [⟨freshId st, ⟨uid, imgid⟩⟩], st.containers, st.fresh + 1⟩
      imgid = .ok info := himg
  have hnil : containersList
      ⟨st.images, st.volumes ++ [⟨freshId st, ⟨uid, imgid⟩⟩], st.containers, st.fresh + 1⟩
      (serverContainerFilter ⟨freshId st, uid, info, false, none, none⟩
        ServerType.GAME none) = [] := by
    unfold containersList
    show st.containers.filter _ = []
    rw [List.filter_eq_nil_iff]
    intro c hcm
    have hne := hfreshC c hcm
    simp only [containerMatches, serverContainerFilter, optMatch, Bool.and_eq_true, beq_iff_eq]
    intro hcontra
    exact hne hcontra.2.1.2.symm
  have hc : getServerContainer
      ⟨st.images, st.volumes ++ [⟨freshId st, ⟨uid, imgid⟩⟩], st.containers, st.fresh + 1⟩
      ⟨freshId st, uid, info, false, none, none⟩ ServerType.GAME none = .ok none := by
    unfold getServerContainer
    rw [hnil]
    rfl
  simp only [get_server_info, hv, hi, hc, exBindOk]

/-- Dissection of a successful `create_game_server`: the image resolved, the
per-(owner, image) volume count was within quota, and the post-state is the
pre-state plus exactly one volume labelled with the owner and the RESOLVED
image id — no container. -/
theorem create_ok_elim {st : EngineState} {uid iid : String} {st1 : EngineState}
    {srv : ServerInfo} (h : create_game_server st uid iid = .ok (st1, srv)) :
    ∃ info servers, get_image_info st iid = .ok info ∧
      list_servers st (some uid) (some info.id_) = .ok servers ∧ servers.length ≤ 5 ∧
      st1 = ⟨st.images, st.volumes ++ [⟨freshId st, ⟨uid, info.id_⟩⟩], st.containers,
        st.fresh + 1⟩ ∧
      srv = ⟨freshId st, uid, info, false, none, none⟩ := by
  cases hg : get_image_info st iid with
  | error e =>
      simp only [create_game_server, hg, exBindErr] at h
      exact absurd h (by simp)
  | ok info =>
      cases hl : list_servers st (some uid) (some info.id_) with
      | error e =>
          simp only [create_game_server, hg, hl, exBindOk, exBindErr] at h
          exact absurd h (by simp)
      | ok servers =>
          by_cases hlen : servers.length > 5
          · simp only [create_game_server, hg, hl, exBindOk, if_pos hlen] at h
            exact absurd h (by simp)
          · simp only [create_game_server, hg, hl, exBindOk, if_neg hlen] at h
            have h2 := Except.ok.inj h
            refine ⟨info, servers, rfl, hl, by omega, ?_, ?_⟩
            · exact (congrArg Prod.fst h2).symm
            · exact (congrArg Prod.snd h2).symm

/-- When the image resolves and the quota is not exceeded,
`create_game_server` succeeds and returns the state extended by the fresh
labelled volume. -/
theorem create_ok_intro {st : EngineState} {uid iid : String} {info : ImageInfo}
    {servers : List ServerInfo}
    (hg : get_image_info st iid = .ok info)
    (hl : list_servers st (some uid) (some info.id_) = .ok servers)
    (hlen : servers.length ≤ 5) :
    create_game_server st uid iid = .ok
      (⟨st.images, st.volumes ++ [⟨freshId st, ⟨uid, info.id_⟩⟩], st.containers, st.fresh + 1⟩,
       ⟨freshId st, uid, info, false, none, none⟩) := by
  have hn : ¬ servers.length > 5 := by omega
  simp only [create_game_server, hg, hl, exBindOk, if_neg hn]
  rfl

/-! ### Read-loop and byte-processing lemmas -/

/-- Whatever the poll outcomes, the loop returns the already-accumulated lines
followed by the processed next `k` lines of the stream, for some `k` within
the remaining line budget: output is always a processed prefix of the stream,
partial or not. -/
theorem runCommandLoop_collect (polls : List Bool) (stream : List (List Nat)) :
    ∀ (fuel pollIdx streamIdx lines retriesN : Nat) (acc : List (List Nat)),
      ∃ k, k ≤ lines ∧
        runCommandLoop polls stream fuel pollIdx streamIdx lines retriesN acc =
          acc.reverse ++
            (List.range k).map (fun i => procLine (stream.getD (streamIdx + i) [])) := by
  intro fuel
  induction fuel with
  | zero =>
      intro pollIdx streamIdx lines retriesN acc
      exact ⟨0, Nat.zero_le _, by simp [runCommandLoop]⟩
  | succ n ih =>
      intro pollIdx streamIdx lines retriesN acc
      cases lines with
      | zero => exact ⟨0, Nat.le_refl _, by simp [runCommandLoop]⟩
      | succ l =>
          by_cases hp : polls.getD pollIdx false
          · obtain ⟨k, hk, heq⟩ :=
              ih (pollIdx + 1) (streamIdx + 1) l retriesN
                (procLine (stream.getD streamIdx []) :: acc)
            refine ⟨k + 1, by omega, ?_⟩
            simp only [runCommandLoop, hp, if_true]
            rw [heq, List.reverse_cons, List.append_assoc]
            congr 1
            rw [List.range_succ_eq_map, List.map_cons, List.map_map]
            simp only [List.singleton_append, Nat.add_zero]
            congr 1
            apply List.map_congr_left
            intro i _
            have : streamIdx + 1 + i = streamIdx + (i + 1) := by omega
            simp [Function.comp, this]
          · cases retriesN with
            | zero =>
                refine ⟨0, Nat.zero_le _, ?_⟩
                simp only [runCommandLoop]
                rw [if_neg hp]
                simp
            | succ r =>
                obtain ⟨k, hk, heq⟩ := ih (pollIdx + 1) streamIdx (l + 1) r acc
                refine ⟨k, hk, ?_⟩
                simp only [runCommandLoop, hp, Bool.false_eq_true, if_false]
                exact heq

/-- Every line the loop returns either was already accumulated or is the
processed form of some line read from the stream. -/
theorem mem_runCommandLoop (polls : List Bool) (stream : List (List Nat)) :
    ∀ (fuel pollIdx streamIdx lines retriesN : Nat) (acc : List (List Nat)) (l : List Nat),
      l ∈ runCommandLoop polls stream fuel pollIdx streamIdx lines retriesN acc →
      l ∈ acc ∨ ∃ x, l = procLine x := by
  intro fuel
  induction fuel with
  | zero =>
      intro pollIdx streamIdx lines retriesN acc l hl
      simp only [runCommandLoop, List.mem_reverse] at hl
      exact Or.inl hl
  | succ n ih =>
      intro pollIdx streamIdx lines retriesN acc l hl
      cases lines with
      | zero =>
          simp only [runCommandLoop, List.mem_reverse] at hl
          exact Or.inl hl
      | succ lns =>
          by_cases hp : polls.getD pollIdx false
          · simp only [runCommandLoop, hp, if_true] at hl
            cases ih _ _ _ _ _ _ hl with
            | inl hmem =>
                cases List.mem_cons.mp hmem with
                | inl heq => exact Or.inr ⟨_, heq⟩
                | inr hmem2 => exact Or.inl hmem2
            | inr hproc => exact Or.inr hproc
          · cases retriesN with
            | zero =>
                simp only [runCommandLoop, hp, Bool.false_eq_true, if_false,
                  List.mem_reverse] at hl
                exact Or.inl hl
            | succ r =>
                simp only [runCommandLoop, hp, Bool.false_eq_true, if_false] at hl
                exact ih _ _ _ _ _ _ hl

/-- The per-line transform removes every carriage return. -/
theorem procLine_no_cr (x : List Nat) : (13 : Nat) ∉ procLine x := by
  unfold procLine stripCR
  intro hmem
  have := (List.mem_filter.mp hmem).2
  simp at this

/-- The joined `run_command` output never contains a carriage return. -/
theorem runCommandOutput_no_cr (polls : List Bool) (stream : List (List Nat)) :
    (13 : Nat) ∉ runCommandOutput polls stream := by
  unfold runCommandOutput
  have hmem : ∀ l ∈ runCommandCollect polls stream, (13 : Nat) ∉ l := by
    intro l hl
    cases mem_runCommandLoop polls stream 146 0 0 20 6 [] l hl with
    | inl habs => exact absurd habs (by simp)
    | inr hproc =>
        obtain ⟨x, hx⟩ := hproc
        rw [hx]
        exact procLine_no_cr x
  generalize hL : runCommandCollect polls stream = L at hmem
  clear hL
  induction L with
  | nil => simp
  | cons l L ihL =>
      simp only [List.foldr_cons]
      intro hin
      cases List.mem_append.mp hin with
      | inl h1 => exact hmem l (by simp) h1
      | inr h2 =>
          cases List.mem_cons.mp h2 with
          | inl h3 => omega
          | inr h4 => exact ihL (fun x hx => hmem x (by simp [hx])) h4

/-- Every match of the `ANSI_ESCAPE` regex is at least one byte long. -/
theorem ansiMatchAt_pos {bs : List Nat} {n : Nat} (h : ansiMatchAt bs = some n) : 1 ≤ n := by
  cases bs with
  | nil => simp [ansiMatchAt] at h
  | cons b rest =>
      simp only [ansiMatchAt] at h
      split at h
      · split at h
        · simp at h
        · split at h
          · have := Option.some.inj h
            omega
          · split at h
            · simp only [Option.map_eq_some'] at h
              obtain ⟨m, _hm, hmn⟩ := h
              omega
            · simp at h
      · split at h
        · have := Option.some.inj h
          omega
        · split at h
          · simp only [Option.map_eq_some'] at h
            obtain ⟨m, _hm, hmn⟩ := h
            omega
          · simp at h

/-- Every byte inside a `[0-?]*[\x20-\x2F]*[@-~]` tail match is at least
`0x20`. -/
theorem csiTail_take {bs : List Nat} {m : Nat} (h : csiTail bs = some m) :
    ∀ b ∈ bs.take m, 0x20 ≤ b := by
  simp only [csiTail] at h
  split at h
  · exact absurd h (by simp)
  · rename_i r2 f rest2 hr2
    split at h
    · rename_i hf
      have hm : m = (bs.takeWhile inCsiParam).length +
          ((bs.drop (bs.takeWhile inCsiParam).length).takeWhile inCsiInter).length + 1 :=
        (Option.some.inj h).symm
      intro b hb
      have hps : bs.take (bs.takeWhile inCsiParam).length = bs.takeWhile inCsiParam :=
        ( List.prefix_iff_eq_take.mp ( List.takeWhile_prefix _)).symm
      have hsplit1 : bs.take m = bs.takeWhile inCsiParam ++
          ((bs.drop (bs.takeWhile inCsiParam).length).take
            (((bs.drop (bs.takeWhile inCsiParam).length).takeWhile inCsiInter).length + 1)) := by
        rw [hm, Nat.add_assoc, List.take_add, hps]
      have his : (bs.drop (bs.takeWhile inCsiParam).length).take
          (((bs.drop (bs.takeWhile inCsiParam).length).takeWhile inCsiInter).length) =
          (bs.drop (bs.takeWhile inCsiParam).length).takeWhile inCsiInter :=
        ( List.prefix_iff_eq_take.mp ( List.takeWhile_prefix _)).symm
      have hsplit2 : (bs.drop (bs.takeWhile inCsiParam).length).take
          (((bs.drop (bs.takeWhile inCsiParam).length).takeWhile inCsiInter).length + 1) =
          ((bs.drop (bs.takeWhile inCsiParam).length).takeWhile inCsiInter) ++
          (((bs.drop (bs.takeWhile inCsiParam).length).drop
            (((bs.drop (bs.takeWhile inCsiParam).length).takeWhile inCsiInter).length)).take 1) := by
        rw [List.take_add, his]
      rw [hsplit1, hsplit2, hr2] at hb
      simp only [List.take_succ_cons, List.take_zero, List.mem_append, List.mem_singleton] at hb
      cases hb with
      | inl h1 =>
          have := List.mem_takeWhile_imp h1
          simp only [inCsiParam, Bool.and_eq_true, decide_eq_true_eq] at this
          omega
      | inr h1 =>
          cases h1 with
          | inl h2 =>
              have := List.mem_takeWhile_imp h2
              simp only [inCsiInter, Bool.and_eq_true, decide_eq_true_eq] at this
              omega
          | inr h2 =>
              subst h2
              simp only [inCsiFinal, Bool.and_eq_true, decide_eq_true_eq] at hf
              omega
    · exact absurd h (by simp)

/-- Every byte of an `ANSI_ESCAPE` match is greater than `13`: the regex never
swallows a carriage return. -/
theorem ansiMatchAt_take13 {bs : List Nat} {n : Nat} (h : ansiMatchAt bs = some n) :
    ∀ b ∈ bs.take n, 13 < b := by
  cases bs with
  | nil => simp [ansiMatchAt] at h
  | cons b rest =>
      cases rest with
      | nil =>
          simp only [ansiMatchAt] at h
          split at h
          · simp at h
          · split at h
            · rename_i hc1
              have hn : n = 1 := (Option.some.inj h).symm
              subst hn
              intro x hx
              simp only [List.take_succ_cons, List.take_zero, List.mem_singleton] at hx
              subst hx
              simp only [inC1, Bool.or_eq_true, Bool.and_eq_true, decide_eq_true_eq] at hc1
              omega
            · split at h
              · simp [csiTail] at h
              · simp at h
      | cons b2 rest2 =>
          simp only [ansiMatchAt] at h
          split at h
          · rename_i h27
            split at h
            · rename_i hf
              have hn : n = 2 := (Option.some.inj h).symm
              subst hn h27
              intro x hx
              simp only [List.take_succ_cons, List.take_zero, List.mem_cons,
                List.not_mem_nil, or_false] at hx
              simp only [inEscFinal, Bool.or_eq_true, Bool.and_eq_true,
                decide_eq_true_eq] at hf
              cases hx with
              | inl h1 => omega
              | inr h2 => subst h2; omega
            · split at h
              · rename_i hb2
                simp only [Option.map_eq_some'] at h
                obtain ⟨m, hm, hmn⟩ := h
                subst h27 hb2
                have htake : ((27 : Nat) :: (91 : Nat) :: rest2).take n =
                    27 :: 91 :: rest2.take m := by
                  rw [← hmn, show 2 + m = (1 + m) + 1 from by omega, List.take_succ_cons,
                    show 1 + m = m + 1 from by omega, List.take_succ_cons]
                intro x hx
                rw [htake] at hx
                cases List.mem_cons.mp hx with
                | inl h1 => omega
                | inr h2 =>
                    cases List.mem_cons.mp h2 with
                    | inl h3 => omega
                    | inr h4 =>
                        have := csiTail_take hm x h4
                        omega
              · simp at h
          · split at h
            · rename_i hc1
              have hn : n = 1 := (Option.some.inj h).symm
              subst hn
              intro x hx
              simp only [List.take_succ_cons, List.take_zero, List.mem_singleton] at hx
              subst hx
              simp only [inC1, Bool.or_eq_true, Bool.and_eq_true, decide_eq_true_eq] at hc1
              omega
            · split at h
              · rename_i h9b
                simp only [Option.map_eq_some'] at h
                obtain ⟨m, hm, hmn⟩ := h
                subst h9b
                intro x hx
                rw [← hmn, show 1 + m = m + 1 from by omega, List.take_succ_cons] at hx
                cases List.mem_cons.mp hx with
                | inl h1 => omega
                | inr h2 =>
                    have := csiTail_take hm x h2
                    omega
              · simp at h

/-- The single-pass substitution removes no carriage returns: the count of
`\r` bytes is preserved by `stripAnsiF`. -/
theorem stripAnsiF_count13 : ∀ (fuel : Nat) (bs : List Nat), bs.length ≤ fuel →
    (stripAnsiF fuel bs).count 13 = bs.count 13 := by
  intro fuel
  induction fuel with
  | zero =>
      intro bs h
      have : bs = [] := List.eq_nil_of_length_eq_zero (Nat.le_antisymm h (Nat.zero_le _))
      subst this
      rfl
  | succ n ih =>
      intro bs h
      cases bs with
      | nil => rfl
      | cons b rest =>
          simp only [stripAnsiF]
          cases hm : ansiMatchAt (b :: rest) with
          | none =>
              simp only [List.count_cons]
              rw [ih rest (by simp at h; omega)]
          | some k =>
              have hk1 : 1 ≤ k := ansiMatchAt_pos hm
              have hlen : (rest.drop (k - 1)).length ≤ n := by
                rw [List.length_drop]
                simp only [List.length_cons] at h
                omega
              rw [ih (rest.drop (k - 1)) hlen]
              have hdrop : (b :: rest).drop k = rest.drop (k - 1) := by
                cases k with
                | zero => omega
                | succ k2 => simp [List.drop_succ_cons]
              have hsplit : (b :: rest).count 13 =
                  ((b :: rest).take k).count 13 + ((b :: rest).drop k).count 13 := by
                rw [← List.count_append, List.take_append_drop]
              have hzero : ((b :: rest).take k).count 13 = 0 := by
                rw [List.count_eq_zero]
                intro hmem
                have := ansiMatchAt_take13 hm 13 hmem
                omega
              rw [hsplit, hzero, hdrop, Nat.zero_add]

/-- `stripAnsi` preserves the number of carriage returns. -/
theorem stripAnsi_count13 (bs : List Nat) : (stripAnsi bs).count 13 = bs.count 13 :=
  stripAnsiF_count13 bs.length bs (Nat.le_refl _)

/-- The regex cannot match at a byte that is neither `ESC` nor in the C1
range. -/
theorem ansiMatchAt_none_clean {b : Nat} (rest : List Nat) (h27 : b ≠ 27) (h128 : b < 128) :
    ansiMatchAt (b :: rest) = none := by
  have hc1 : inC1 b = false := by
    simp only [inC1, Bool.or_eq_false_iff, Bool.and_eq_false_iff, decide_eq_false_iff_not,
      not_le]
    omega
  have h9b : b ≠ 0x9B := by omega
  cases rest with
  | nil => simp [ansiMatchAt, h27, hc1, h9b]
  | cons b2 rest2 => simp [ansiMatchAt, h27, hc1, h9b]

/-- On input free of `ESC` and of high bytes — ordinary terminal text — the
substitution is the identity. -/
theorem stripAnsiF_clean : ∀ (fuel : Nat) (bs : List Nat),
    (∀ b ∈ bs, b ≠ 27 ∧ b < 128) → stripAnsiF fuel bs = bs := by
  intro fuel
  induction fuel with
  | zero =>
      intro bs _
      cases bs <;> rfl
  | succ n ih =>
      intro bs hclean
      cases bs with
      | nil => rfl
      | cons b rest =>
          have hb := hclean b (by simp)
          simp only [stripAnsiF, ansiMatchAt_none_clean rest hb.1 hb.2]
          rw [ih rest (fun x hx => hclean x (by simp [hx]))]

/-- A successful `get_server_logs` returns the single-pass ANSI-stripped
(tail-limited) log bytes of one of the engine's containers — nothing else is
removed, in particular no carriage returns. -/
theorem logs_ok_elim {st : EngineState} {sid : String} {lim : Option Nat} {out : List Nat}
    (h : get_server_logs st sid lim = .ok out) :
    ∃ c, c ∈ st.containers ∧ out = stripAnsi (logsTail lim c.logBytes) ∧
      out.count 13 = (logsTail lim c.logBytes).count 13 := by
  cases hv : get_server_info st sid none with
  | error e =>
      simp only [get_server_logs, hv, exBindErr] at h
      exact absurd h (by simp)
  | ok si =>
      cases hc : getServerContainer st si ServerType.GAME none with
      | error e =>
          simp only [get_server_logs, hv, hc, exBindOk, exBindErr] at h
          exact absurd h (by simp)
      | ok c? =>
          simp only [get_server_logs, hv, hc, exBindOk] at h
          cases c? with
          | none => exact absurd h (by simp)
          | some c =>
              obtain ⟨_, hhead⟩ := getServerContainer_ok_elim hc
              have hmem : c ∈ containersList st
                  (serverContainerFilter si ServerType.GAME none) := by
                cases hl : containersList st (serverContainerFilter si ServerType.GAME none) with
                | nil => rw [hl] at hhead; exact absurd hhead (by simp)
                | cons x xs =>
                    rw [hl] at hhead
                    simp only [List.head?_cons] at hhead
                    have : c = x := Option.some.inj hhead
                    subst this
                    exact List.mem_cons_self c xs
              have hmem2 : c ∈ st.containers := by
                unfold containersList at hmem
                exact (List.mem_filter.mp hmem).1
              refine ⟨c, hmem2, (Except.ok.inj h).symm, ?_⟩
              rw [← Except.ok.inj h]
              exact stripAnsi_count13 _

/-! ### Claim theorems -/

/-- C1: the NAT-traversal wrapper does NOT return the wrapped runner's
`get_image_info` result: as written, `UPNPWrapper.get_image_info` calls
itself, so no recursion depth makes it produce an answer — while the wrapped
base runner answers the very same query.  (Every sibling operation delegates
to `self._container_runner`; this one's self-call is the slip the claim's
forwarding statement contradicts.) -/
theorem c1_upnp_get_image_info_diverges :
    (∀ (base : BaseRunner) (fuel : Nat) (image_id : String),
        upnpGetImageInfo base fuel image_id = none) ∧
    baseC1.getImageInfoFn "games:valheim" = .ok infoG := by
  constructor
  · intro base fuel iid
    induction fuel with
    | zero => rfl
    | succ n ih => exact ih
  · rfl

/-- C2: `delete_game_server` on `v1` succeeds, after which `get_server_info`
on `v1` surfaces docker-py's raw `docker.errors.NotFound` (modelled
`engineNotFound`) — not the domain `ServerNotFound` the spec promises: the
translation branch `if volume is None: raise ServerNotFound()` is dead code
because `volumes.get` raises instead of returning `None`. -/
theorem c2_delete_then_get_raw_engine_error :
    delete_game_server stC2 "v1" = .ok stC2del ∧
    get_server_info stC2del "v1" none = .error .engineNotFound ∧
    RunnerError.engineNotFound ≠ RunnerError.serverNotFound :=
  ⟨rfl, rfl, by decide⟩

/-- C3 counterexample: in `stC3` server `v1` is NOT running — its
`get_server_info` says so and `stop_game_server` raises `ServerNotRunning` —
yet `run_command` does not raise `ServerNotRunning`: its volume-id-only
filter resolves the running file-browser sidecar and the command succeeds,
refuting the claimed "if and only if no running container for that server
exists". -/
theorem c3_cex_run_command_on_stopped_server :
    get_server_info stC3 "v1" none = .ok ⟨"v1", "u", infoG, false, none, none⟩ ∧
    stop_game_server stC3 "v1" = .error .serverNotRunning ∧
    runCommandResolve stC3 "v1" = .ok (fbC "fb1" "v1") ∧
    run_command stC3 "v1" "save" [] [] = .ok [] :=
  ⟨rfl, rfl, rfl, rfl⟩

/-- C3 amended: for a resolvable server, `start_game_server` raises
`ServerAlreadyRunning` iff a running game container with the server's
identity labels exists (and a second start after a successful one always
does); `stop_game_server` and `get_server_logs` raise `ServerNotRunning` iff
no such game container exists; `run_command` raises `ServerNotRunning` iff no
running container OF ANY KIND carries the server's volume-id label — a
running file-browser sidecar suppresses the error and receives the
command. -/
theorem c3_amended_run_state_preconditions :
    (∀ (st : EngineState) (sid : String) (ports : Option (List (PortM × Option PortM)))
        (si : ServerInfo), get_server_info st sid none = .ok si →
        ((start_game_server st sid ports = .error .serverAlreadyRunning ↔
            gameContainersFor st si.id_ si.image.id_ ≠ []) ∧
         (stop_game_server st sid = .error .serverNotRunning ↔
            gameContainersFor st si.id_ si.image.id_ = []) ∧
         (∀ lim, get_server_logs st sid lim = .error .serverNotRunning ↔
            gameContainersFor st si.id_ si.image.id_ = []))) ∧
    (∀ (st : EngineState) (sid : String)
        (ports ports2 : Option (List (PortM × Option PortM)))
        (st1 : EngineState) (si1 : ServerInfo),
        start_game_server st sid ports = .ok (st1, si1) →
        start_game_server st1 sid ports2 = .error .serverAlreadyRunning) ∧
    (∀ (st : EngineState) (sid cmd : String) (polls : List Bool)
        (stream : List (List Nat)),
        run_command st sid cmd polls stream = .error .serverNotRunning ↔
          containersList st { volume_id := some sid } = []) := by
  refine ⟨?_, ?_, ?_⟩
  · intro st sid ports si h
    exact ⟨start_SAR_iff ports h, stop_SNR_iff h, fun lim => logs_SNR_iff lim h⟩
  · intro st sid ports ports2 st1 si1 h
    exact start_twice_SAR h
  · intro st sid cmd polls stream
    exact runCommand_SNR_iff st sid cmd polls stream

theorem c3_amended_witness :
    start_game_server stC9 "v1" none = .error .serverAlreadyRunning ∧
    (run_command stC3 "v1" "save" [] [] = .error .serverNotRunning ↔
      containersList stC3 { volume_id := some "v1" } = []) := by
  constructor
  · exact (c3_amended_run_state_preconditions.1 stC9 "v1" none
      ⟨"v1", "u", infoG, true, some DOMAIN, some []⟩ rfl).1.mpr (by decide)
  · exact c3_amended_run_state_preconditions.2.2 stC3 "v1" "save" [] []

/-- C4 counterexample: the loop does NOT give up after five consecutive empty
polls — with five leading timeouts, a line arriving on the sixth poll is
still collected, so the output is not empty. -/
theorem c4_cex_five_empty_polls_not_final : ¬ givesUpAfterFiveEmptyPolls := by
  intro hclaim
  have h := hclaim [false, false, false, false, false, true] [[120]] (by decide)
  exact absurd h (by decide)

/-- C4 amended: the polling loop collects at most twenty lines, always a
processed prefix of the stream, and returns that partial output without
raising; with every poll timing out it returns empty output; the empty-poll
budget is cumulative, not consecutive: the counter starting at 5 is
decremented once per empty poll (including at 0) and the loop exits on an
empty poll with a negative counter, so a line after SIX leading empty polls
is still collected while one after seven is not. -/
theorem c4_amended_poll_loop :
    (∀ (polls : List Bool) (stream : List (List Nat)), ∃ k, k ≤ 20 ∧
        runCommandCollect polls stream =
          (List.range k).map (fun i => procLine (stream.getD i []))) ∧
    (∀ stream : List (List Nat), runCommandOutput [] stream = []) ∧
    runCommandOutput (List.replicate 6 false ++ [true]) [[120]] = [120, 10] ∧
    runCommandOutput (List.replicate 7 false ++ [true]) [[120]] = [] := by
  refine ⟨?_, ?_, by decide, by decide⟩
  · intro polls stream
    obtain ⟨k, hk, heq⟩ := runCommandLoop_collect polls stream 146 0 0 20 6 []
    refine ⟨k, hk, ?_⟩
    rw [show runCommandCollect polls stream =
      runCommandLoop polls stream 146 0 0 20 6 [] from rfl, heq]
    simp
  · intro stream
    rfl

/-- C5 counterexample: in the latest runner an owner with three running
sidecars gets a FOURTH one — `start_file_browser` succeeds and creates it, so
no per-owner cap of three exists there. -/
theorem c5_cex_fourth_sidecar_created :
    countSidecars stC5 "u" = 3 ∧
    start_file_browser stC5 "v4" "u" none = .ok (stC5after, fbInfoC5) ∧
    countSidecars stC5after "u" = 4 :=
  ⟨rfl, rfl, rfl⟩

/-- C5 amended: the per-owner cap of three is enforced only by the LEGACY cog
runner: its `start_file_browser` refuses (`ServerAlreadyRunning`) whenever
the owner already has more than two live sidecars, and a successful call
grows the owner's sidecar count from at most two to at most three.  The
latest runner has no per-owner cap (see the counterexample), only
per-(owner, server) reuse. -/
theorem c5_amended_legacy_cap :
    ∀ (st : LegacyState) (server executor : String),
      ((legacyListFileBrowsers st executor).length > 2 →
        legacyStartFileBrowser st server executor = .error .serverAlreadyRunning) ∧
      (∀ (st1 : LegacyState) (b : String × String),
        legacyStartFileBrowser st server executor = .ok (st1, b) →
        (legacyListFileBrowsers st executor).length ≤ 2 ∧
        (legacyListFileBrowsers st1 executor).length =
          (legacyListFileBrowsers st executor).length + 1 ∧
        (legacyListFileBrowsers st1 executor).length ≤ 3) := by
  intro st server executor
  constructor
  · intro hgt
    simp only [legacyStartFileBrowser, if_pos hgt]
  · intro st1 b h
    by_cases hgt : (legacyListFileBrowsers st executor).length > 2
    · simp only [legacyStartFileBrowser, if_pos hgt] at h
      exact absurd h (by simp)
    · simp only [legacyStartFileBrowser, if_neg hgt] at h
      have hst1 : st1 = ⟨st.browsers ++ [(executor, server)]⟩ :=
        (congrArg Prod.fst (Except.ok.inj h)).symm
      have hlist : legacyListFileBrowsers ⟨st.browsers ++ [(executor, server)]⟩ executor =
          legacyListFileBrowsers st executor ++ [(executor, server)] := by
        unfold legacyListFileBrowsers
        show (st.browsers ++ [(executor, server)]).filter _ = _
        rw [List.filter_append]
        congr 1
        simp
      rw [hst1, hlist]
      simp only [List.length_append, List.length_cons, List.length_nil]
      refine ⟨?_, ?_, ?_⟩
      · omega
      · trivial
      · omega

theorem c5_amended_witness :
    legacyStartFileBrowser legSt3 "s4" "u" = .error .serverAlreadyRunning ∧
    ((legacyListFileBrowsers legSt1 "u").length ≤ 2 ∧
     (legacyListFileBrowsers ⟨[("u", "s1"), ("u", "s2")]⟩ "u").length =
       (legacyListFileBrowsers legSt1 "u").length + 1 ∧
     (legacyListFileBrowsers ⟨[("u", "s1"), ("u", "s2")]⟩ "u").length ≤ 3) := by
  constructor
  · exact (c5_amended_legacy_cap legSt3 "s4" "u").1 (by decide)
  · exact (c5_amended_legacy_cap legSt1 "s2" "u").2 ⟨[("u", "s1"), ("u", "s2")]⟩
      ("u", "s2") rfl

/-- C6 counterexample: with TWO running game containers carrying server
`v1`'s labels, `run_command` silently picks the first match and succeeds —
no consistency error — refuting "this holds for every operation that resolves
a server's running container".  (`get_server_info` on the same state does
raise the consistency `ValueError`.) -/
theorem c6_cex_run_command_picks_first :
    (containersList stC6 { volume_id := some "v1" }).length = 2 ∧
    runCommandResolve stC6 "v1" = .ok (gameC "a1" "v1" []) ∧
    run_command stC6 "v1" "save" [] [] = .ok [] ∧
    get_server_info stC6 "v1" none = .error .valueErr :=
  ⟨rfl, rfl, rfl, rfl⟩

/-- C6 amended: every lookup through `_get_server_container` (the
volume+image+kind filter — used by `get_server_info` and through it by
start/stop/logs/sidecar operations) raises the unrecoverable consistency
`ValueError` when more than one container matches, and `get_server_info`
propagates it; `run_command` alone resolves by the volume-id label only and
takes the FIRST match with no uniqueness check. -/
theorem c6_amended_uniqueness :
    (∀ (st : EngineState) (si : ServerInfo) (ty : ServerType) (u : Option String),
        (containersList st (serverContainerFilter si ty u)).length > 1 →
        getServerContainer st si ty u = .error .valueErr) ∧
    (∀ (st : EngineState) (sid : String) (vol : EngVolume) (info : ImageInfo),
        volumesGet st sid = .ok vol →
        get_image_info st vol.labels.image_id = .ok info →
        (gameContainersFor st vol.vid info.id_).length > 1 →
        get_server_info st sid none = .error .valueErr) ∧
    (∀ (st : EngineState) (sid : String) (c : EngContainer) (cs : List EngContainer)
        (cmd : String) (polls : List Bool) (stream : List (List Nat)),
        containersList st { volume_id := some sid } = c :: cs →
        run_command st sid cmd polls stream = .ok (runCommandOutput polls stream)) := by
  refine ⟨?_, ?_, ?_⟩
  · intro st si ty u hgt
    unfold getServerContainer
    rw [if_pos hgt]
  · intro st sid vol info hv hi hgt
    have hgt2 : (containersList st (serverContainerFilter
        ⟨vol.vid, vol.labels.user_id, info, false, none, none⟩ ServerType.GAME none)).length > 1 :=
      hgt
    have hc : getServerContainer st ⟨vol.vid, vol.labels.user_id, info, false, none, none⟩
        ServerType.GAME none = .error .valueErr := by
      unfold getServerContainer
      rw [if_pos hgt2]
    simp only [get_server_info, hv, hi, hc, exBindOk, exBindErr]
  · intro st sid c cs cmd polls stream hl
    simp only [run_command, runCommandResolve, hl, exBindOk]

theorem c6_amended_witness :
    getServerContainer stC6 ⟨"v1", "u", infoG, false, none, none⟩ ServerType.GAME none =
      .error .valueErr ∧
    run_command stC6 "v1" "x" [] [] = .ok (runCommandOutput [] []) := by
  constructor
  · exact c6_amended_uniqueness.1 stC6 ⟨"v1", "u", infoG, false, none, none⟩
      ServerType.GAME none (by decide)
  · exact c6_amended_uniqueness.2.2 stC6 "v1" (gameC "a1" "v1" []) [gameC "a2" "v1" []]
      "x" [] [] rfl

/-- C7: `start_file_browser` is idempotent per (owner, server) pair: after a
successful call, repeating it returns the SAME state (no new container) and
the SAME sidecar descriptor — an existing matching sidecar is returned
unchanged, so two consecutive calls yield the identical sidecar identity. -/
theorem c7_start_file_browser_idempotent :
    ∀ (st : EngineState) (sid owner : String) (pw : Option String) (st1 : EngineState)
      (info1 : FileBrowserInfo),
      start_file_browser st sid owner pw = .ok (st1, info1) →
      start_file_browser st1 sid owner pw = .ok (st1, info1) := by
  intro st sid owner pw st1 info1 h
  exact sfb_idempotent_general h

theorem c7_witness :
    start_file_browser stC7after "v1" "u" none = .ok (stC7after, fbInfoC7) :=
  c7_start_file_browser_idempotent stC7 "v1" "u" none stC7after fbInfoC7 rfl

/-- C8: `create_game_server` fails with docker-py's `ImageNotFound` when no
image carries the requested tag; fails `MaxServersReached` when the owner's
volume count for the image exceeds 5; otherwise creates exactly one labelled
volume and no container, returning a Server with `running = false` that is
immediately listed by `list_servers(owner, image)`. -/
theorem c8_create_server_contract :
    (∀ (st : EngineState) (uid iid : String),
        st.images.find? (fun i => i.tags.any (fun t => t.id_ == iid)) = none →
        create_game_server st uid iid = .error .engineImageNotFound) ∧
    (∀ (st : EngineState) (uid iid : String) (info : ImageInfo) (servers : List ServerInfo),
        get_image_info st iid = .ok info →
        list_servers st (some uid) (some info.id_) = .ok servers →
        servers.length > 5 →
        create_game_server st uid iid = .error .maxServersReached) ∧
    (∀ (st : EngineState) (uid iid : String) (info : ImageInfo) (servers : List ServerInfo),
        get_image_info st iid = .ok info →
        get_image_info st info.id_ = .ok info →
        list_servers st (some uid) (some info.id_) = .ok servers →
        servers.length ≤ 5 →
        (∀ v ∈ st.volumes, v.vid ≠ freshId st) →
        (∀ c ∈ st.containers, c.labels.volume_id ≠ freshId st) →
        create_game_server st uid iid = .ok
          (⟨st.images, st.volumes ++ [⟨freshId st, ⟨uid, info.id_⟩⟩], st.containers,
            st.fresh + 1⟩,
           ⟨freshId st, uid, info, false, none, none⟩) ∧
        list_servers ⟨st.images, st.volumes ++ [⟨freshId st, ⟨uid, info.id_⟩⟩], st.containers,
            st.fresh + 1⟩ (some uid) (some info.id_) =
          .ok (servers ++ [⟨freshId st, uid, info, false, none, none⟩])) := by
  refine ⟨?_, ?_, ?_⟩
  · intro st uid iid hfind
    have h1 : imagesGet st iid = .error .engineImageNotFound := by
      unfold imagesGet
      rw [hfind]
    have h2 : get_image_info st iid = .error .engineImageNotFound := by
      unfold get_image_info
      rw [h1]
      rfl
    simp only [create_game_server, h2, exBindErr]
  · intro st uid iid info servers hg hl hgt
    simp only [create_game_server, hg, hl, exBindOk, if_pos hgt]
  · intro st uid iid info servers hg hself hl hlen hfreshV hfreshC
    refine ⟨create_ok_intro hg hl hlen, ?_⟩
    have hvl : volumesList
        ⟨st.images, st.volumes ++ [⟨freshId st, ⟨uid, info.id_⟩⟩], st.containers, st.fresh + 1⟩
        ⟨some uid, some info.id_⟩ =
        volumesList st ⟨some uid, some info.id_⟩ ++ [⟨freshId st, ⟨uid, info.id_⟩⟩] := by
      unfold volumesList
      show (st.volumes ++ [_]).filter _ = _
      rw [List.filter_append]
      congr 1
      simp [optMatch]
    have hcongr : (volumesList st ⟨some uid, some info.id_⟩).mapM
        (fun v => get_server_info
          ⟨st.images, st.volumes ++ [⟨freshId st, ⟨uid, info.id_⟩⟩], st.containers,
            st.fresh + 1⟩ v.vid none) = .ok servers := by
      have hfg : ∀ v ∈ volumesList st ⟨some uid, some info.id_⟩,
          get_server_info
            ⟨st.images, st.volumes ++ [⟨freshId st, ⟨uid, info.id_⟩⟩], st.containers,
              st.fresh + 1⟩ v.vid none = get_server_info st v.vid none := by
        intro v hv
        apply gsi_append_volume
        have hvm : v ∈ st.volumes := by
          unfold volumesList at hv
          exact (List.mem_filter.mp hv).1
        rw [List.find?_isSome]
        exact ⟨v, hvm, by simp⟩
      rw [mapM_congr _ _ _ hfg]
      exact hl
    have hnew : get_server_info
        ⟨st.images, st.volumes ++ [⟨freshId st, ⟨uid, info.id_⟩⟩], st.containers, st.fresh + 1⟩
        (freshId st) none = .ok ⟨freshId st, uid, info, false, none, none⟩ :=
      gsi_new_volume st uid info.id_ info hself hfreshV hfreshC
    show (volumesList _ _).mapM _ = _
    rw [hvl]
    exact mapM_append_singleton _ _ _ _ hcongr _ hnew

theorem c8_witness :
    create_game_server stC8 "u" "g:1" = .ok
      (⟨stC8.images, stC8.volumes ++ [⟨freshId stC8, ⟨"u", infoG.id_⟩⟩], stC8.containers,
        stC8.fresh + 1⟩,
       ⟨freshId stC8, "u", infoG, false, none, none⟩) ∧
    list_servers ⟨stC8.images, stC8.volumes ++ [⟨freshId stC8, ⟨"u", infoG.id_⟩⟩],
        stC8.containers, stC8.fresh + 1⟩ (some "u") (some infoG.id_) =
      .ok ([] ++ [⟨freshId stC8, "u", infoG, false, none, none⟩]) :=
  c8_create_server_contract.2.2 stC8 "u" "g:1" infoG [] rfl rfl rfl (by decide)
    (by simp [stC8]) (by simp [stC8])

/-- C9 counterexample: `get_server_logs` does NOT strip carriage returns —
the raw log bytes `a \r b \n` come back unchanged, `\r` included; moreover
the single substitution pass can leave an ANSI escape sequence assembled from
adjacent fragments, for `run_command` lines as well, so "no ANSI escape
sequences for any input byte stream" also fails. -/
theorem c9_cex_logs_keep_cr :
    get_server_logs stC9 "v1" none = .ok [97, 13, 98, 10] ∧
    (13 : Nat) ∈ [97, 13, 98, 10] ∧
    hasAnsiMatch (stripAnsi ansiTrick) = true ∧
    hasAnsiMatch (procLine ansiTrick) = true :=
  ⟨rfl, by decide, rfl, rfl⟩

/-- C9 amended: `run_command` output never contains a carriage return (each
line is ANSI-stripped then CR-filtered, newline-joined); `get_server_logs`
returns only the single-pass ANSI-stripped container log bytes, PRESERVING
every carriage return; the single pass is the identity on ESC-free
ASCII-range input but does not guarantee absence of escape sequences on
adversarial input (see the counterexample). -/
theorem c9_amended_stream_sanitization :
    (∀ (polls : List Bool) (stream : List (List Nat)),
        (13 : Nat) ∉ runCommandOutput polls stream) ∧
    (∀ (st : EngineState) (sid : String) (lim : Option Nat) (out : List Nat),
        get_server_logs st sid lim = .ok out →
        ∃ c, c ∈ st.containers ∧ out = stripAnsi (logsTail lim c.logBytes) ∧
          out.count 13 = (logsTail lim c.logBytes).count 13) ∧
    (∀ bs : List Nat, (stripAnsi bs).count 13 = bs.count 13) ∧
    (∀ bs : List Nat, (∀ b ∈ bs, b ≠ 27 ∧ b < 128) → stripAnsi bs = bs) := by
  refine ⟨runCommandOutput_no_cr, ?_, stripAnsi_count13, ?_⟩
  · intro st sid lim out h
    exact logs_ok_elim h
  · intro bs hclean
    exact stripAnsiF_clean bs.length bs hclean

theorem c9_amended_witness :
    ((13 : Nat) ∉ runCommandOutput [] []) ∧
    stripAnsi [97, 98] = [97, 98] ∧
    (∃ c, c ∈ stC9.containers ∧ ([97, 13, 98, 10] : List Nat) =
        stripAnsi (logsTail none c.logBytes) ∧
      ([97, 13, 98, 10] : List Nat).count 13 = (logsTail none c.logBytes).count 13) :=
  ⟨c9_amended_stream_sanitization.1 [] [],
   c9_amended_stream_sanitization.2.2.2 [97, 98] (by decide),
   c9_amended_stream_sanitization.2.1 stC9 "v1" none [97, 13, 98, 10] rfl⟩

/-- C10: for an engine image with several tags, `get_image_info` returns the
info derived from the FIRST tag — whose id may differ from the requested
image id — and `create_game_server` both counts the per-(owner, image) quota
against that first-tag id and labels the new volume with it. -/
theorem c10_multi_tag_first_tag_wins :
    ∀ (st : EngineState) (iid : String) (img : EngImage) (t1 t2 : ImageTag)
      (ts : List ImageTag),
      imagesGet st iid = .ok img → img.tags = t1 :: t2 :: ts →
      get_image_info st iid = .ok ⟨t1.name, t1.version, img.exposedPorts.dedup⟩ ∧
      ImageInfo.id_ ⟨t1.name, t1.version, img.exposedPorts.dedup⟩ = t1.id_ ∧
      (∀ (uid : String) (servers : List ServerInfo),
          list_servers st (some uid) (some t1.id_) = .ok servers →
          servers.length > 5 → create_game_server st uid iid = .error .maxServersReached) ∧
      (∀ (uid : String) (st1 : EngineState) (srv : ServerInfo),
          create_game_server st uid iid = .ok (st1, srv) →
          srv.image.id_ = t1.id_ ∧
          st1.volumes = st.volumes ++ [⟨freshId st, ⟨uid, t1.id_⟩⟩]) := by
  intro st iid img t1 t2 ts hg htags
  have hinfo : get_image_info st iid = .ok ⟨t1.name, t1.version, img.exposedPorts.dedup⟩ := by
    unfold get_image_info
    rw [hg, exBindOk]
    unfold extractImageInfoFromImage
    rw [htags]
    simp only [List.map_cons]
  have hid : ImageInfo.id_ ⟨t1.name, t1.version, img.exposedPorts.dedup⟩ = t1.id_ := rfl
  refine ⟨hinfo, hid, ?_, ?_⟩
  · intro uid servers hl hgt
    have hl2 : list_servers st (some uid)
        (some (ImageInfo.id_ ⟨t1.name, t1.version, img.exposedPorts.dedup⟩)) = .ok servers := hl
    simp only [create_game_server, hinfo, hl2, exBindOk, if_pos hgt]
  · intro uid st1 srv h
    obtain ⟨info2, servers2, hg2, _hl2, _hlen2, hst1, hsrv⟩ := create_ok_elim h
    have hinfo2 : info2 = ⟨t1.name, t1.version, img.exposedPorts.dedup⟩ :=
      (Except.ok.inj (hinfo.symm.trans hg2)).symm
    constructor
    · rw [hsrv, hinfo2]
      rfl
    · rw [hst1, hinfo2]
      rfl

theorem c10_witness :
    get_image_info stT "alias:2" = .ok ⟨"g", "1", imgT.exposedPorts.dedup⟩ ∧
    (ServerInfo.image ⟨"r0", "u2", ⟨"g", "1", []⟩, false, none, none⟩).id_ =
      ImageTag.id_ ⟨"g", "1"⟩ ∧
    (⟨[imgT], [⟨"r0", ⟨"u2", "g:1"⟩⟩], [], 1⟩ : EngineState).volumes =
      stT.volumes ++ [⟨freshId stT, ⟨"u2", ImageTag.id_ ⟨"g", "1"⟩⟩⟩] := by
  have happ := c10_multi_tag_first_tag_wins stT "alias:2" imgT ⟨"g", "1"⟩ ⟨"alias", "2"⟩ []
    rfl rfl
  have hcreate : create_game_server stT "u2" "alias:2" = .ok
      (⟨[imgT], [⟨"r0", ⟨"u2", "g:1"⟩⟩], [], 1⟩,
       ⟨"r0", "u2", ⟨"g", "1", []⟩, false, none, none⟩) := rfl
  exact ⟨happ.1, (happ.2.2.2 "u2" _ _ hcreate).1, (happ.2.2.2 "u2" _ _ hcreate).2⟩

end ServersBot
